import Mathlib

/-!
Verification of the tachyon resource-placement service.

This file gives a shallow embedding, in Lean 4, of the parts of the
tachyon code base that implement the resource graph model, the
generation-based optimistic concurrency protocol, the allocation
candidate search, and the transactional allocation writer
(`src/tachyon/api/blueprints/{allocations,inventories,traits,
resource_providers,reshaper,allocation_candidates}.py`).

The Neo4j graph is embedded as an explicit `Store` record of lists of
nodes and relationships; every HTTP handler that mutates the store is
embedded as a function `... -> Store -> Except Err Store`, where
`Except.error` models the handler raising an error with the enclosing
transaction rolled back (the neo4j driver rolls an uncommitted
transaction back when its session closes), so an error result leaves the
caller's store untouched by construction.  Handlers are modelled at a
fixed modern microversion (between 1.30 and 1.37 inclusive: consumer
generations are mandatory, consumer types are not yet), and fields of
the graph that no claim mentions (timestamps, project/user ownership,
consumer types) are omitted.  Python floats occur only as inventory
allocation ratios; they are embedded as rationals.
-/

set_option maxHeartbeats 1000000

/-- Inventory record owned by one (provider, resource class) pair.
Field values are set by the handlers in `inventories.py` / `reshaper.py`
with the COALESCE defaults already applied, and the allocation ratio
(a Python float in the source) is embedded as a rational. -/
structure Inventory where
  total : Int
  reserved : Int
  min_unit : Int
  max_unit : Int
  step_size : Int
  alloc_ratio : Rat
  deriving Repr, DecidableEq

/-- ResourceProvider node: uuid, name, generation, optional PARENT_OF
incoming edge (the parent's uuid), and the disabled flag consulted by
the candidate search. -/
structure Provider where
  uuid : String
  name : String
  generation : Int
  parent : Option String
  disabled : Bool
  deriving Repr, DecidableEq

/-- Consumer node: uuid and generation. -/
structure Consumer where
  uuid : String
  generation : Int
  deriving Repr, DecidableEq

/-- CONSUMES relationship: one consumer's allocation of `used` units
against the inventory of resource class `rc` on provider `provider`. -/
structure Alloc where
  consumer : String
  provider : String
  rc : String
  used : Int
  deriving Repr, DecidableEq

/-- The graph store: ResourceProvider, Consumer and Inventory nodes,
CONSUMES edges, HAS_TRAIT edges (provider uuid, trait name), MEMBER_OF
edges (provider uuid, aggregate uuid) and ResourceClass nodes. -/
structure Store where
  providers : List Provider
  consumers : List Consumer
  inventories : List (String × String × Inventory)
  allocations : List Alloc
  traits : List (String × String)
  aggregates : List (String × String)
  resource_classes : List String
  deriving Repr, DecidableEq

/-- Error taxonomy of `tachyon/api/errors.py`, restricted to the
constructors the embedded handlers raise. -/
inductive Err where
  | notFound (msg : String)
  | badRequest (msg : String)
  | conflict (msg : String)
  | consumerGenerationConflict (msg : String)
  | resourceProviderGenerationConflict (msg : String)
  deriving Repr, DecidableEq

/-- Decidable equality of handler results, for concrete evaluation. -/
instance {e a : Type} [DecidableEq e] [DecidableEq a] : DecidableEq (Except e a) := fun x y =>
  match x, y with
  | .ok v, .ok w =>
    if h : v = w then isTrue (by rw [h]) else isFalse (by intro hc; cases hc; exact h rfl)
  | .error v, .error w =>
    if h : v = w then isTrue (by rw [h]) else isFalse (by intro hc; cases hc; exact h rfl)
  | .ok _, .error _ => isFalse (by intro hc; cases hc)
  | .error _, .ok _ => isFalse (by intro hc; cases hc)

/-- Lookup of a ResourceProvider node by uuid
(`MATCH (rp:ResourceProvider {uuid: $uuid})`). -/
def findProvider (s : Store) (u : String) : Option Provider :=
  s.providers.find? (fun p => p.uuid == u)

/-- Current generation of a provider, when it exists. -/
def providerGen (s : Store) (u : String) : Option Int :=
  (findProvider s u).map Provider.generation

/-- Lookup of a Consumer node by uuid. -/
def findConsumer (s : Store) (u : String) : Option Consumer :=
  s.consumers.find? (fun c => c.uuid == u)

/-- Current generation of a consumer, when it exists. -/
def consumerGen (s : Store) (u : String) : Option Int :=
  (findConsumer s u).map Consumer.generation

/-- Lookup of the Inventory of resource class `rc` on provider `rp`
(`MATCH (rp)-[:HAS_INVENTORY]->(inv)-[:OF_CLASS]->(rc)`). -/
def findInventory (s : Store) (rp rc : String) : Option Inventory :=
  (s.inventories.find? (fun e => e.1 == rp && e.2.1 == rc)).map (fun e => e.2.2)

/-- Whether provider `rp` carries an inventory of class `rc`. -/
def invExists (s : Store) (rp rc : String) : Bool :=
  (findInventory s rp rc).isSome

/-- Sum of `alloc.used` over all CONSUMES edges into the inventory of
class `rc` on provider `rp` (`COALESCE(sum(alloc.used), 0)`). -/
def invUsed (s : Store) (rp rc : String) : Int :=
  ((s.allocations.filter (fun a => a.provider == rp && a.rc == rc)).map Alloc.used).sum

/-- All CONSUMES edges of one consumer. -/
def consumerAllocs (s : Store) (cu : String) : List Alloc :=
  s.allocations.filter (fun a => a.consumer == cu)

/-- Trait names attached to a provider. -/
def providerTraits (s : Store) (u : String) : List String :=
  (s.traits.filter (fun t => t.1 == u)).map Prod.snd

/-- Aggregate uuids a provider is a member of. -/
def providerAggs (s : Store) (u : String) : List String :=
  (s.aggregates.filter (fun t => t.1 == u)).map Prod.snd

/-- Replace the provider of uuid `u` by `f` applied to it. -/
def mapProvider (s : Store) (u : String) (f : Provider → Provider) : Store :=
  { s with providers := s.providers.map (fun p => if p.uuid == u then f p else p) }

/-- Generation bump `SET rp.generation = rp.generation + 1` applied to
one provider. -/
def bumpProvider (s : Store) (u : String) : Store :=
  mapProvider s u (fun p => { p with generation := p.generation + 1 })

/-- Generation bump applied to one consumer. -/
def bumpConsumer (s : Store) (u : String) : Store :=
  { s with consumers :=
      s.consumers.map (fun c =>
        if c.uuid == u then { c with generation := c.generation + 1 } else c) }

/-! ## Candidate search: capacity and quantization

Embedding of `_get_providers_with_capacity`
(`allocation_candidates.py:1088-1156`) and of the shared Cypher WHERE
clause it and the granular queries use. -/

/-- The WHERE clause of the per-class capacity query:
`available >= amount AND amount >= min_unit AND amount <= max_unit AND
(amount - min_unit) % step_size = 0`, with
`available = (total - reserved) * allocation_ratio - used`.  The
allocation-ratio comparison is stated with the (positive) denominator of
the rational ratio cleared, which is exactly the rational inequality of
the query (`capacityOk_avail_iff` below) while staying within integer
arithmetic. -/
def capacityOk (inv : Inventory) (used amount : Int) : Bool :=
  ((inv.total - inv.reserved) * inv.alloc_ratio.num - used * (inv.alloc_ratio.den : Int)
      ≥ amount * (inv.alloc_ratio.den : Int))
    && amount ≥ inv.min_unit
    && amount ≤ inv.max_unit
    && (amount - inv.min_unit) % inv.step_size == 0

/-- The denominator-cleared comparison of `capacityOk` coincides with
the rational inequality `(total - reserved) * ratio - used >= amount`. -/
theorem capacityOk_avail_iff (t r u m : Int) (q : Rat) :
    (m * (q.den : Int) ≤ (t - r) * q.num - u * (q.den : Int)) ↔
      ((m : Rat) ≤ ((t - r : Int) : Rat) * q - (u : Rat)) := by
  have hd : (0 : Rat) < (q.den : Rat) := by exact_mod_cast q.den_pos
  have hnum : (q.num : Rat) = q * (q.den : Rat) :=
    (div_eq_iff (ne_of_gt hd)).mp (Rat.num_div_den q)
  rw [← Int.cast_le (R := Rat)]
  push_cast
  rw [hnum]
  have hring : ((t : Rat) - r) * (q * (q.den : Rat)) - u * (q.den : Rat)
      = (((t : Rat) - r) * q - u) * (q.den : Rat) := by ring
  rw [hring, mul_le_mul_right hd]

/-- Whether the inventory of class `rc` on provider `rp` qualifies for a
request of `amount` units: the provider/inventory match of the per-class
query in `_get_providers_with_capacity` plus its WHERE clause. -/
def inventoryQualifies (s : Store) (rp rc : String) (amount : Int) : Bool :=
  match findInventory s rp rc with
  | some inv => capacityOk inv (invUsed s rp rc) amount
  | none => false

/-- Provider uuids returned by the per-class query of
`_get_providers_with_capacity` for one resource class. -/
def providersForClass (s : Store) (rc : String) (amount : Int) : List String :=
  ((s.providers.filter (fun p => inventoryQualifies s p.uuid rc amount)).map Provider.uuid)

/-- Python loop of `_get_providers_with_capacity`: per-class candidate
sets intersected left to right.  The `if not providers` guard of the
source (which re-seeds an empty running set instead of intersecting) is
kept as written. -/
def get_providers_with_capacity (s : Store) (resources : List (String × Int)) : List String :=
  resources.foldl
    (fun acc e =>
      let rcProviders := providersForClass s e.1 e.2
      if acc.isEmpty then rcProviders else acc.filter (fun u => rcProviders.contains u))
    []

/-! ## Provider tree traversal

The PARENT_OF relation is stored as the `parent` field of the child.
Cypher's unbounded `-[:PARENT_OF*]->` traversals are embedded by
walking the parent chain with fuel `s.providers.length`, enough for any
acyclic store. -/

/-- Chain of strict ancestors of `u` (parent, grandparent, ...),
computed with explicit fuel. -/
def ancestorChainFuel (s : Store) : Nat → String → List String
  | 0, _ => []
  | n + 1, u =>
    match findProvider s u with
    | some p =>
      match p.parent with
      | some q => q :: ancestorChainFuel s n q
      | none => []
    | none => []

/-- Strict ancestors of provider `u`. -/
def ancestors (s : Store) (u : String) : List String :=
  ancestorChainFuel s s.providers.length u

/-- Cypher `(a)-[:PARENT_OF*0..]->(u)`: `a` is `u` itself or a strict
ancestor of `u`. -/
def inTreeOf (s : Store) (a u : String) : Bool :=
  u == a || (ancestors s u).contains a

/-! ## Provider-side mutating handlers -/

/-- PUT /resource_providers/{uuid}/traits (`traits.py:354-433`,
`put_provider_traits`).  Reads the body's
`resource_provider_generation` (`none` embeds a body without the field)
and the trait list, checks existence and generation, then replaces the
provider's HAS_TRAIT edges and bumps the generation. -/
def put_provider_traits (u : String) (generation : Option Int) (ts : List String)
    (s : Store) : Except Err Store :=
  match generation with
  | none => .error (.badRequest "'resource_provider_generation' is a required field.")
  | some g =>
    match findProvider s u with
    | none => .error (.notFound ("Resource provider " ++ u ++ " not found."))
    | some p =>
      if p.generation ≠ g then
        .error (.resourceProviderGenerationConflict
          ("Generation mismatch for resource provider " ++ u ++ "."))
      else
        .ok (bumpProvider
          { s with traits := s.traits.filter (fun t => t.1 ≠ u) ++ ts.map (fun t => (u, t)) } u)

/-- DELETE /resource_providers/{uuid}/inventories
(`inventories.py:666-693`, `delete_all_inventories`, microversion 1.5+).
The request carries no expected generation: after the existence check
the handler unconditionally `DETACH DELETE`s every inventory of the
provider (which also removes the CONSUMES edges into them) and bumps the
provider generation. -/
def delete_all_inventories (u : String) (s : Store) : Except Err Store :=
  match findProvider s u with
  | none => .error (.notFound ("No resource provider with uuid " ++ u ++ " found"))
  | some _ =>
    .ok (bumpProvider
      { s with
        inventories := s.inventories.filter (fun e => e.1 ≠ u)
        allocations := s.allocations.filter (fun a => a.provider ≠ u) } u)

/-- POST /resource_providers (`resource_providers.py:508-616`,
`create_resource_provider`): validation and uniqueness checks, then a
node created with `generation: 0`. -/
def create_resource_provider (name : String) (u : String) (parent : Option String)
    (s : Store) : Except Err Store :=
  if name = "" then .error (.badRequest "'name' is a required property")
  else if name.length > 200 then .error (.badRequest "Failed validating 'maxLength'")
  else if parent = some u then
    .error (.badRequest "parent provider UUID cannot be same as UUID")
  else if (findProvider s u).isSome then
    .error (.conflict ("Conflicting resource provider uuid: " ++ u ++ " already exists"))
  else if (s.providers.find? (fun p => p.name == name)).isSome then
    .error (.conflict ("Conflicting resource provider name: " ++ name ++ " already exists"))
  else
    match parent with
    | some q =>
      if (findProvider s q).isNone then
        .error (.badRequest "parent provider UUID does not exist")
      else
        .ok { s with providers := s.providers ++
          [{ uuid := u, name := name, generation := 0, parent := some q, disabled := false }] }
    | none =>
      .ok { s with providers := s.providers ++
        [{ uuid := u, name := name, generation := 0, parent := none, disabled := false }] }

/-- PUT /resource_providers/{uuid} (`resource_providers.py:665-864`,
`update_resource_provider`), at microversion 1.37+ where `generation` is
a required body field and re-parenting is allowed.  `parentUpdate` is
`none` when the body has no `parent_provider_uuid` key, `some none` for
an explicit null, `some (some q)` for a new parent.  All checks precede
every mutation, so an error leaves the store untouched. -/
def update_resource_provider (u : String) (name : Option String)
    (generation : Option Int) (parentUpdate : Option (Option String))
    (s : Store) : Except Err Store :=
  let nameTooLong : Bool := match name with | some n => n.length > 200 | none => false
  if nameTooLong then
    .error (.badRequest "Failed validating 'maxLength'")
  else if parentUpdate = some (some u) then
    .error (.badRequest "creating loop in the provider tree is not allowed.")
  else
    match findProvider s u with
    | none => .error (.notFound ("No resource provider with uuid " ++ u ++ " found"))
    | some p =>
      let nameDup : Bool := match name with
        | some n => n ≠ "" &&
            (s.providers.find? (fun q => q.name == n && q.uuid ≠ u)).isSome
        | none => false
      if nameDup then
        .error (.conflict "Conflicting resource provider name already exists")
      else
        match generation with
        | none => .error (.badRequest "'generation' is a required field for updates.")
        | some g =>
          if g ≠ p.generation then
            .error (.resourceProviderGenerationConflict
              ("Generation mismatch for resource provider " ++ u ++ "."))
          else
            match parentUpdate with
            | some (some q) =>
              if (findProvider s q).isNone then
                .error (.badRequest "parent provider UUID does not exist")
              else if (ancestors s q).contains u then
                .error (.badRequest "creating loop in the provider tree is not allowed.")
              else
                .ok (bumpProvider
                  (mapProvider s u (fun r =>
                    { r with name := (match name with | some n => n | none => r.name)
                             parent := some q })) u)
            | some none =>
              .ok (bumpProvider
                (mapProvider s u (fun r =>
                  { r with name := (match name with | some n => n | none => r.name)
                           parent := none })) u)
            | none =>
              .ok (bumpProvider
                (mapProvider s u (fun r =>
                  { r with name := (match name with | some n => n | none => r.name) })) u)

/-! ## Transactional allocation writer

Embedding of `allocations.py` (`put_allocations`, `delete_allocations`,
`post_allocations`, `_delete_consumer_if_no_allocations`) and
`reshaper.py` (`reshape`) at a microversion in [1.30, 1.37]: consumer
generations are required, consumer types absent.  Each handler runs in
one store transaction, so the embedding of a handler either returns the
committed store or an error with the original store intact. -/

/-- Shared consumer-generation handling of `put_allocations`
(`allocations.py:171-236`), `post_allocations` (480-550) and `reshape`
(263-321): an expectation of `none` (JSON null) means the consumer must
not exist yet and is created at generation 0; an integer expectation is
checked against the current generation (a missing consumer is MERGEd at
generation 0 before the check). -/
def checkConsumerGeneration (cu : String) (cgen : Option Int) (s : Store) :
    Except Err Store :=
  match cgen with
  | none =>
    match findConsumer s cu with
    | some c =>
      .error (.consumerGenerationConflict
        ("consumer generation conflict - expected null but got " ++ toString c.generation))
    | none => .ok { s with consumers := s.consumers ++ [⟨cu, 0⟩] }
  | some g =>
    match findConsumer s cu with
    | some c =>
      if c.generation ≠ g then
        .error (.consumerGenerationConflict
          ("consumer generation conflict - expected " ++ toString g ++
            " but got " ++ toString c.generation))
      else .ok s
    | none =>
      if (0 : Int) ≠ g then
        .error (.consumerGenerationConflict
          ("consumer generation conflict - expected " ++ toString g ++ " but got 0"))
      else .ok { s with consumers := s.consumers ++ [⟨cu, 0⟩] }

/-- Removal of all CONSUMES edges of one consumer
(`MATCH (c {uuid: $uuid})-[alloc:CONSUMES]->() DELETE alloc`). -/
def deleteConsumerAllocations (s : Store) (cu : String) : Store :=
  { s with allocations := s.allocations.filter (fun a => a.consumer ≠ cu) }

/-- MERGE of a CONSUMES edge followed by `SET alloc.used = $amount`. -/
def setAlloc (s : Store) (cu rp rc : String) (amt : Int) : Store :=
  if (s.allocations.find?
      (fun a => a.consumer == cu && a.provider == rp && a.rc == rc)).isSome then
    { s with allocations := s.allocations.map (fun a =>
        if a.consumer == cu && a.provider == rp && a.rc == rc then
          { a with used := amt } else a) }
  else
    { s with allocations := s.allocations ++ [⟨cu, rp, rc, amt⟩] }

/-- Error raised by `put_allocations` for a missing inventory. -/
def putMissingInvErr (rp rc : String) : Err :=
  .notFound ("Inventory for " ++ rc ++ " not found on resource provider " ++ rp ++ ".")

/-- Error raised by `post_allocations` for a missing inventory: a
BadRequest, unlike the NotFound of the single-consumer and reshape
paths. -/
def postMissingInvErr (rp _rc : String) : Err :=
  .badRequest ("Allocation for resource provider '" ++ rp ++ "' that does not exist.")

/-- Error raised by `reshape` for a missing inventory. -/
def reshapeMissingInvErr (rp rc : String) : Err :=
  .notFound ("Inventory for " ++ rc ++ " not found on provider " ++ rp)

/-- Inner allocation-creation loop shared verbatim (up to the error
raised) by `put_allocations` (296-331), `post_allocations` (612-650) and
`reshape` (359-395): for one provider, per resource class, verify the
inventory exists (else raise `mkErr`) and MERGE the CONSUMES edge. -/
def createAllocationsForProvider (mkErr : String → String → Err) (cu rp : String) :
    List (String × Int) → Store → Except Err Store
  | [], s => .ok s
  | (rc, amt) :: rest, s =>
    if invExists s rp rc then
      createAllocationsForProvider mkErr cu rp rest (setAlloc s cu rp rc amt)
    else .error (mkErr rp rc)

/-- Outer allocation-creation loop over the per-provider entries of one
consumer's requested allocation map. -/
def createAllocations (mkErr : String → String → Err) (cu : String) :
    List (String × List (String × Int)) → Store → Except Err Store
  | [], s => .ok s
  | (rp, rcs) :: rest, s =>
    match createAllocationsForProvider mkErr cu rp rcs s with
    | .error e => .error e
    | .ok s' => createAllocations mkErr cu rest s'

/-- Embedding of `_delete_consumer_if_no_allocations`
(`allocations.py:715-745`): DETACH DELETE the consumer node when it has
zero CONSUMES edges. -/
def delete_consumer_if_no_allocations (s : Store) (cu : String) : Store :=
  if (findConsumer s cu).isSome && (consumerAllocs s cu).isEmpty then
    { s with consumers := s.consumers.filter (fun c => c.uuid ≠ cu) }
  else s

/-- PUT /allocations/{consumer_uuid} (`allocations.py:122-357`,
`put_allocations`) at microversion 1.28+: consumer-generation handling,
deletion of the consumer's existing allocations, re-creation from the
requested map (missing inventory raises NotFound), then either consumer
deletion (empty request map) or a consumer generation bump. -/
def put_allocations (cu : String) (cgen : Option Int)
    (allocs : List (String × List (String × Int))) (s : Store) : Except Err Store :=
  match checkConsumerGeneration cu cgen s with
  | .error e => .error e
  | .ok s1 =>
    let s2 := deleteConsumerAllocations s1 cu
    match createAllocations putMissingInvErr cu allocs s2 with
    | .error e => .error e
    | .ok s3 =>
      if allocs.isEmpty then .ok (delete_consumer_if_no_allocations s3 cu)
      else .ok (bumpConsumer s3 cu)

/-- DELETE /allocations/{consumer_uuid} (`allocations.py:360-386`,
`delete_allocations`): checks the consumer exists, deletes its CONSUMES
edges, and leaves the Consumer node in place. -/
def delete_allocations (cu : String) (s : Store) : Except Err Store :=
  match findConsumer s cu with
  | none => .error (.notFound ("Consumer " ++ cu ++ " not found."))
  | some _ => .ok (deleteConsumerAllocations s cu)

/-- Requested write for one consumer of a `post_allocations` batch or of
the allocation side of `reshape`. -/
structure ConsumerWrite where
  uuid : String
  consumer_generation : Option Int
  allocations : List (String × List (String × Int))
  deriving Repr, DecidableEq

/-- Phase 1 of `post_allocations` (`allocations.py:473-597`): ensure all
consumers exist and validate generations. -/
def postPhase1 : List ConsumerWrite → Store → Except Err Store
  | [], s => .ok s
  | w :: rest, s =>
    match checkConsumerGeneration w.uuid w.consumer_generation s with
    | .error e => .error e
    | .ok s' => postPhase1 rest s'

/-- Phase 2 of `post_allocations` (`allocations.py:599-668`): per
consumer, delete existing allocations, create the new ones (missing
inventory raises BadRequest), then delete the consumer (empty map) or
bump its generation. -/
def postPhase2 : List ConsumerWrite → Store → Except Err Store
  | [], s => .ok s
  | w :: rest, s =>
    let s1 := deleteConsumerAllocations s w.uuid
    match createAllocations postMissingInvErr w.uuid w.allocations s1 with
    | .error e => .error e
    | .ok s2 =>
      postPhase2 rest
        (if w.allocations.isEmpty then delete_consumer_if_no_allocations s2 w.uuid
         else bumpConsumer s2 w.uuid)

/-- POST /allocations (`allocations.py:389-684`, `post_allocations`,
microversion 1.28+): the whole batch runs in one transaction; any
failure rolls it back (including consumers speculatively created in
phase 1), which the Except result models. -/
def post_allocations (batch : List ConsumerWrite) (s : Store) : Except Err Store :=
  match postPhase1 batch s with
  | .error e => .error e
  | .ok s1 => postPhase2 batch s1

/-- Inventory replacement values of one resource class in a reshape
request; optional fields take the defaults of `reshaper.py:172-177`. -/
structure ReshapeInventory where
  total : Int
  reserved : Option Int
  min_unit : Option Int
  max_unit : Option Int
  step_size : Option Int
  alloc_ratio : Option Rat
  deriving Repr, DecidableEq

/-- Defaults of `reshaper.py:172-177` applied to a reshape inventory. -/
def normalizeReshapeInventory (iv : ReshapeInventory) : Inventory :=
  { total := iv.total
    reserved := iv.reserved.getD 0
    min_unit := iv.min_unit.getD 1
    max_unit := iv.max_unit.getD 2147483647
    step_size := iv.step_size.getD 1
    alloc_ratio := iv.alloc_ratio.getD 1 }

/-- Inventory replacement set of one provider in a reshape request, with
its expected provider generation. -/
structure ProviderInvReplace where
  uuid : String
  resource_provider_generation : Int
  inventories : List (String × ReshapeInventory)
  deriving Repr, DecidableEq

/-- Creation loop of reshape phase 1 (`reshaper.py:158-211`): MERGE the
resource class and create the normalized inventory, per class. -/
def reshapeCreateInventories (u : String) (l : List (String × ReshapeInventory))
    (s : Store) : Store :=
  l.foldl
    (fun st rciv =>
      let st1 := if st.resource_classes.contains rciv.1 then st
        else { st with resource_classes := st.resource_classes ++ [rciv.1] }
      { st1 with inventories :=
          st1.inventories ++ [(u, rciv.1, normalizeReshapeInventory rciv.2)] })
    s

/-- Phase-1 step of `reshape` (`reshaper.py:117-221`) for one provider:
generation check, DETACH DELETE of the old inventories (which also
removes the CONSUMES edges into them), creation of the new inventories
(MERGEing resource classes), and a provider generation bump. -/
def reshapeProviderStep (e : ProviderInvReplace) (s : Store) : Except Err Store :=
  match findProvider s e.uuid with
  | none => .error (.notFound ("No resource provider with uuid " ++ e.uuid ++ " found"))
  | some p =>
    if p.generation ≠ e.resource_provider_generation then
      .error (.resourceProviderGenerationConflict "resource provider generation conflict")
    else
      let s1 := { s with
        inventories := s.inventories.filter (fun iv => iv.1 ≠ e.uuid)
        allocations := s.allocations.filter (fun a => a.provider ≠ e.uuid) }
      .ok (bumpProvider (reshapeCreateInventories e.uuid e.inventories s1) e.uuid)

/-- Phase 1 of `reshape`: inventory replacement for every provider. -/
def reshapePhase1 : List ProviderInvReplace → Store → Except Err Store
  | [], s => .ok s
  | e :: rest, s =>
    match reshapeProviderStep e s with
    | .error err => .error err
    | .ok s' => reshapePhase1 rest s'

/-- Phase-2 step of `reshape` (`reshaper.py:224-405`) for one consumer:
generation handling, deletion of existing allocations, creation of the
new ones (missing inventory raises NotFound), and an unconditional
consumer generation bump (reshape never deletes an emptied consumer). -/
def reshapeConsumerStep (w : ConsumerWrite) (s : Store) : Except Err Store :=
  match checkConsumerGeneration w.uuid w.consumer_generation s with
  | .error e => .error e
  | .ok s1 =>
    let s2 := deleteConsumerAllocations s1 w.uuid
    match createAllocations reshapeMissingInvErr w.uuid w.allocations s2 with
    | .error e => .error e
    | .ok s3 => .ok (bumpConsumer s3 w.uuid)

/-- Phase 2 of `reshape`: allocation replacement for every consumer. -/
def reshapePhase2 : List ConsumerWrite → Store → Except Err Store
  | [], s => .ok s
  | w :: rest, s =>
    match reshapeConsumerStep w s with
    | .error e => .error e
    | .ok s' => reshapePhase2 rest s'

/-- POST /reshaper (`reshaper.py:47-412`, `reshape`, microversion
1.30+): inventory replacements and allocation replacements committed as
one transaction. -/
def reshape (invs : List ProviderInvReplace) (allocs : List ConsumerWrite)
    (s : Store) : Except Err Store :=
  if invs.isEmpty then .error (.badRequest "'inventories' is a required field")
  else
    match reshapePhase1 invs s with
    | .error e => .error e
    | .ok s1 => reshapePhase2 allocs s1

/-! ## Granular (multi-group) candidate search

Embedding of `_get_granular_allocation_candidates_fallback`
(`allocation_candidates.py:877-1085`), the Python-level granular
algorithm (the primary APOC Cypher query of
`_get_granular_allocation_candidates` implements the same
isolate/first-match semantics and falls back to this function). -/

/-- One request group as handed to the granular query
(`RequestGroup.to_cypher_dict`): resources, required/forbidden traits,
flattened aggregate list and optional in-tree constraint. -/
structure ReqGroup where
  suffix : String
  resources : List (String × Int)
  required_traits : List String
  forbidden_traits : List String
  member_of : List String
  in_tree : Option String
  deriving Repr, DecidableEq

/-- Roots of the base query: providers with no incoming PARENT_OF edge
and `COALESCE(disabled, false) = false`. -/
def rootsOf (s : Store) : List Provider :=
  s.providers.filter (fun r => r.parent == none && !r.disabled)

/-- Root-level trait constraints of the base query. -/
def rootMatches (s : Store) (root_required root_forbidden : List String)
    (r : Provider) : Bool :=
  root_required.all (fun t => (providerTraits s r.uuid).contains t)
    && root_forbidden.all (fun t => !(providerTraits s r.uuid).contains t)

/-- Providers reached by `(root)-[:PARENT_OF*0..]->(provider)`. -/
def treeProviders (s : Store) (root : String) : List Provider :=
  s.providers.filter (fun p => inTreeOf s root p.uuid)

/-- Per-provider trait/aggregate/in-tree WHERE clause of the granular
base query. -/
def groupBaseMatch (s : Store) (g : ReqGroup) (p : Provider) : Bool :=
  g.required_traits.all (fun t => (providerTraits s p.uuid).contains t)
    && g.forbidden_traits.all (fun t => !(providerTraits s p.uuid).contains t)
    && (g.member_of.isEmpty || g.member_of.any (fun a => (providerAggs s p.uuid).contains a))
    && (match g.in_tree with
        | none => true
        | some t => p.uuid == t || inTreeOf s t p.uuid)

/-- Per-provider capacity check of the fallback: every resource of the
group passes the capacity query (vacuously true for a resourceless
group, matching `if has_capacity or not resources`). -/
def groupCapacityMatch (s : Store) (g : ReqGroup) (p : Provider) : Bool :=
  g.resources.all (fun e => inventoryQualifies s p.uuid e.1 e.2)

/-- Valid providers of one group inside one root's tree: base filters
then the capacity filter, as (uuid, generation) pairs. -/
def groupProvidersForRoot (s : Store) (g : ReqGroup) (root : Provider) :
    List (String × Int) :=
  (((treeProviders s root.uuid).filter (groupBaseMatch s g)).filter
      (groupCapacityMatch s g)).map (fun p => (p.uuid, p.generation))

/-- Entry of the fallback's `groups_by_root` dict for one root: the
root's uuid and generation plus the per-suffix valid provider lists. -/
structure RootGroups where
  root_uuid : String
  root_generation : Int
  groups : List (String × List (String × Int))
  deriving Repr, DecidableEq

/-- Assignment `groups_by_root[root]["groups"][suffix] = ...`:
upsert of one suffix entry. -/
def setGroupEntry (gs : List (String × List (String × Int))) (sfx : String)
    (ps : List (String × Int)) : List (String × List (String × Int)) :=
  if (gs.find? (fun e => e.1 == sfx)).isSome then
    gs.map (fun e => if e.1 == sfx then (e.1, ps) else e)
  else gs ++ [(sfx, ps)]

/-- Insertion of one (root, suffix, providers) result into
`groups_by_root`, keyed by root uuid in first-insertion order. -/
def addRootGroup (gbr : List RootGroups) (root : Provider) (sfx : String)
    (ps : List (String × Int)) : List RootGroups :=
  if (gbr.find? (fun rd => rd.root_uuid == root.uuid)).isSome then
    gbr.map (fun rd =>
      if rd.root_uuid == root.uuid then { rd with groups := setGroupEntry rd.groups sfx ps }
      else rd)
  else gbr ++ [{ root_uuid := root.uuid, root_generation := root.generation,
                 groups := [(sfx, ps)] }]

/-- Processing of one group against every candidate root: roots whose
valid-provider list is empty are skipped (`if valid_providers:`). -/
def addGroupForRoots (s : Store) (g : ReqGroup) :
    List Provider → List RootGroups → List RootGroups
  | [], gbr => gbr
  | root :: rest, gbr =>
    let ps := groupProvidersForRoot s g root
    addGroupForRoots s g rest (if ps.isEmpty then gbr else addRootGroup gbr root g.suffix ps)

/-- The `groups_by_root` accumulation loop over all groups. -/
def groupsByRootAux (s : Store) (roots : List Provider) :
    List ReqGroup → List RootGroups → List RootGroups
  | [], gbr => gbr
  | g :: rest, gbr => groupsByRootAux s roots rest (addGroupForRoots s g roots gbr)

/-- The fallback's `groups_by_root` map: per candidate root (filtered by
root-level traits), the valid providers of every group. -/
def groupsByRoot (s : Store) (root_required root_forbidden : List String)
    (groups : List ReqGroup) : List RootGroups :=
  groupsByRootAux s ((rootsOf s).filter (rootMatches s root_required root_forbidden))
    groups []

/-- Chosen provider of one group inside a candidate. -/
structure GroupChoice where
  suffix : String
  provider_uuid : String
  provider_gen : Int
  deriving Repr, DecidableEq

/-- One allocation candidate of the granular fallback. -/
structure Candidate where
  root_uuid : String
  root_generation : Int
  allocation_data : List GroupChoice
  deriving Repr, DecidableEq

/-- Python `len(l) != len(set(l))`. -/
def hasDuplicates (l : List String) : Bool :=
  l.length ≠ l.dedup.length

/-- Suffix normalization of the fallback: a leading underscore is
stripped (stated on the character list so that it evaluates by kernel
reduction). -/
def normalizeSuffix (x : String) : String :=
  match x.data with
  | '_' :: rest => ⟨rest⟩
  | _ => x

/-- The fallback's same_subtree block (`allocation_candidates.py:
1056-1067`): it computes the chosen providers of each declared set but
applies no ancestry check (`valid` is never set to False), so it accepts
every combination; the per-root iteration already confines all chosen
providers to one root's tree. -/
def sameSubtreeCheck (normalized : List (List String)) (combination : List GroupChoice) :
    Bool :=
  if normalized.isEmpty then true
  else normalized.all (fun stg =>
    let stg_providers :=
      (combination.filter (fun c => stg.contains c.suffix)).map GroupChoice.provider_uuid
    if stg_providers.length < 2 then true else true)

/-- Candidate construction for one root (`allocation_candidates.py:
1025-1080`): require every group to have providers, pick the first
provider of each group, enforce `group_policy=isolate` on the numbered
(non-empty suffix) groups, run the (vacuous) same_subtree block. -/
def candidateForRoot (groups : List ReqGroup) (group_policy : Option String)
    (normalized_same_subtree : List (List String)) (rd : RootGroups) :
    Option Candidate :=
  if rd.groups.length ≠ groups.length then none
  else
    let combination := groups.filterMap (fun g =>
      match (rd.groups.find? (fun e => e.1 == g.suffix)).map Prod.snd with
      | some (pref :: _) => some ⟨g.suffix, pref.1, pref.2⟩
      | _ => none)
    let numbered :=
      (combination.filter (fun c => c.suffix ≠ "")).map GroupChoice.provider_uuid
    if group_policy == some "isolate" && numbered.length > 0 && hasDuplicates numbered then
      none
    else if !sameSubtreeCheck normalized_same_subtree combination then none
    else some { root_uuid := rd.root_uuid, root_generation := rd.root_generation,
                allocation_data := combination }

/-- The candidate-collection loop with the `limit` early break (the
break fires after appending once `len(candidates) >= limit`, and a limit
of 0 — falsy in Python — never breaks). -/
def collectCandidates (groups : List ReqGroup) (group_policy : Option String)
    (normalized_same_subtree : List (List String)) (limit : Option Nat) :
    List RootGroups → List Candidate → List Candidate
  | [], acc => acc
  | rd :: rest, acc =>
    match candidateForRoot groups group_policy normalized_same_subtree rd with
    | none => collectCandidates groups group_policy normalized_same_subtree limit rest acc
    | some c =>
      let acc2 := acc ++ [c]
      match limit with
      | some l =>
        if l ≠ 0 && acc2.length ≥ l then acc2
        else collectCandidates groups group_policy normalized_same_subtree limit rest acc2
      | none => collectCandidates groups group_policy normalized_same_subtree limit rest acc2

/-- Embedding of `_get_granular_allocation_candidates_fallback`
(`allocation_candidates.py:877-1085`). -/
def get_granular_allocation_candidates_fallback (s : Store) (groups : List ReqGroup)
    (group_policy : Option String) (same_subtree_groups : List (List String))
    (root_required root_forbidden : List String) (limit : Option Nat) :
    List Candidate :=
  collectCandidates groups group_policy (same_subtree_groups.map (·.map normalizeSuffix))
    limit (groupsByRoot s root_required root_forbidden groups) []

/-! ## Concrete stores used by scenario theorems and witnesses -/

/-- Store with the spec's capacity-arithmetic inventory on P1
(total 100, reserved 20, ratio 2.0, used 10) and its quantization
inventory on P2 (min_unit 4, max_unit 20, step_size 4). -/
def capStore : Store :=
  { providers := [⟨"P1", "cn1", 0, none, false⟩, ⟨"P2", "cn2", 0, none, false⟩]
    consumers := [⟨"C0", 1⟩]
    inventories := [("P1", "VCPU", ⟨100, 20, 1, 1000, 1, 2⟩),
                    ("P2", "VCPU", ⟨100, 0, 4, 20, 4, 1⟩)]
    allocations := [⟨"C0", "P1", "VCPU", 10⟩]
    traits := []
    aggregates := []
    resource_classes := ["VCPU"] }

/-- Store with one provider at generation 5 holding one inventory. -/
def genFiveStore : Store :=
  { providers := [⟨"P1", "cn1", 5, none, false⟩]
    consumers := []
    inventories := [("P1", "VCPU", ⟨100, 0, 1, 100, 1, 1⟩)]
    allocations := []
    traits := []
    aggregates := []
    resource_classes := ["VCPU"] }

/-- Result of `delete_all_inventories "P1"` on `genFiveStore`. -/
def genFiveStoreAfter : Store :=
  { providers := [⟨"P1", "cn1", 6, none, false⟩]
    consumers := []
    inventories := []
    allocations := []
    traits := []
    aggregates := []
    resource_classes := ["VCPU"] }

/-- Store for the atomic-batch scenario: provider P1 with a VCPU
inventory, consumer Y at generation 2, and no consumer X. -/
def batchStore : Store :=
  { providers := [⟨"P1", "cn1", 0, none, false⟩]
    consumers := [⟨"Y", 2⟩]
    inventories := [("P1", "VCPU", ⟨100, 0, 1, 100, 1, 1⟩)]
    allocations := []
    traits := []
    aggregates := []
    resource_classes := ["VCPU"] }

/-- The batch of the atomic-failure scenario: new consumer X (expected
generation null) and consumer Y expecting generation 3. -/
def conflictBatch : List ConsumerWrite :=
  [⟨"X", none, [("P1", [("VCPU", 2)])]⟩, ⟨"Y", some 3, [("P1", [("VCPU", 1)])]⟩]

/-- Store with consumer C1 (generation 4) holding one allocation of 5
VCPU against provider P1. -/
def allocStore : Store :=
  { providers := [⟨"P1", "cn1", 0, none, false⟩]
    consumers := [⟨"C1", 4⟩]
    inventories := [("P1", "VCPU", ⟨100, 20, 1, 1000, 1, 2⟩)]
    allocations := [⟨"C1", "P1", "VCPU", 5⟩]
    traits := []
    aggregates := []
    resource_classes := ["VCPU"] }

/-- `allocStore` with C1's allocations removed but C1 still present. -/
def allocStoreNoAllocs : Store :=
  { allocStore with allocations := [] }

/-- Store for the isolation scenario: one single-provider tree with a
16-VCPU inventory. -/
def isoStore : Store :=
  { providers := [⟨"cn", "cn", 0, none, false⟩]
    consumers := []
    inventories := [("cn", "VCPU", ⟨16, 0, 1, 16, 1, 1⟩)]
    allocations := []
    traits := []
    aggregates := []
    resource_classes := ["VCPU"] }

/-- Numbered group requesting VCPU:4 (suffix "1"). -/
def gIso1 : ReqGroup := ⟨"1", [("VCPU", 4)], [], [], [], none⟩

/-- Numbered group requesting VCPU:4 (suffix "2"). -/
def gIso2 : ReqGroup := ⟨"2", [("VCPU", 4)], [], [], [], none⟩

/-- Store with root r and children a (trait TA) and b (trait TB), each
with a 16-VCPU inventory. -/
def twoChildStore : Store :=
  { providers := [⟨"r", "root", 0, none, false⟩, ⟨"a", "childA", 0, some "r", false⟩,
                  ⟨"b", "childB", 0, some "r", false⟩]
    consumers := []
    inventories := [("a", "VCPU", ⟨16, 0, 1, 16, 1, 1⟩), ("b", "VCPU", ⟨16, 0, 1, 16, 1, 1⟩)]
    allocations := []
    traits := [("a", "TA"), ("b", "TB")]
    aggregates := []
    resource_classes := ["VCPU"] }

/-- Numbered group requesting VCPU:4 with required trait TA. -/
def gTrait1 : ReqGroup := ⟨"1", [("VCPU", 4)], ["TA"], [], [], none⟩

/-- Numbered group requesting VCPU:4 with required trait TB. -/
def gTrait2 : ReqGroup := ⟨"2", [("VCPU", 4)], ["TB"], [], [], none⟩

/-- The candidate the granular fallback returns for `twoChildStore` with
groups `gTrait1`, `gTrait2`. -/
def twoChildCandidate : Candidate :=
  ⟨"r", 0, [⟨"1", "a", 0⟩, ⟨"2", "b", 0⟩]⟩

/-! ## Helper lemmas -/

/-- Inventory lookups only read the `inventories` field. -/
theorem invExists_congr {s s' : Store} (h : s'.inventories = s.inventories)
    (rp rc : String) : invExists s' rp rc = invExists s rp rc := by
  unfold invExists findInventory
  rw [h]

/-- Consumer lookups only read the `consumers` field. -/
theorem findConsumer_congr {s s' : Store} (h : s'.consumers = s.consumers)
    (cu : String) : findConsumer s' cu = findConsumer s cu := by
  unfold findConsumer
  rw [h]

/-- Provider lookups only read the `providers` field. -/
theorem findProvider_congr {s s' : Store} (h : s'.providers = s.providers)
    (u : String) : findProvider s' u = findProvider s u := by
  unfold findProvider
  rw [h]

/-- A consumer found by uuid has that uuid. -/
theorem findConsumer_eq_some_uuid {s : Store} {cu : String} {c : Consumer}
    (h : findConsumer s cu = some c) : c.uuid = cu := by
  unfold findConsumer at h
  have := List.find?_some h
  simpa using this

/-- A provider found by uuid has that uuid. -/
theorem findProvider_eq_some_uuid {s : Store} {u : String} {p : Provider}
    (h : findProvider s u = some p) : p.uuid = u := by
  unfold findProvider at h
  have := List.find?_some h
  simpa using this

/-- Generic lemma: a find?-by-uuid over a list mapped by a function that
only alters the element of uuid `u` (keeping its uuid). -/
theorem find?_uuid_map (l : List Consumer) (u : String) (f : Consumer → Consumer)
    (hf : ∀ c, (f c).uuid = c.uuid) (v : String) :
    (l.map (fun c => if c.uuid == u then f c else c)).find? (fun c => c.uuid == v) =
      ((l.find? (fun c => c.uuid == v)).map (fun c => if c.uuid == u then f c else c)) := by
  induction l with
  | nil => rfl
  | cons c rest ih =>
    rw [List.map_cons]
    by_cases h : (c.uuid == v) = true
    · rw [List.find?_cons_of_pos rest h, Option.map_some']
      by_cases hu : (c.uuid == u) = true
      · rw [if_pos hu]
        exact List.find?_cons_of_pos _ (by rw [hf]; exact h)
      · rw [if_neg hu]
        exact List.find?_cons_of_pos _ h
    · rw [List.find?_cons_of_neg rest h, ← ih]
      by_cases hu : (c.uuid == u) = true
      · rw [if_pos hu]
        exact List.find?_cons_of_neg _ (by rw [hf]; exact h)
      · rw [if_neg hu]
        exact List.find?_cons_of_neg _ h

/-- Provider version of `find?_uuid_map`. -/
theorem find?_uuid_map_provider (l : List Provider) (u : String) (f : Provider → Provider)
    (hf : ∀ p, (f p).uuid = p.uuid) (v : String) :
    (l.map (fun p => if p.uuid == u then f p else p)).find? (fun p => p.uuid == v) =
      ((l.find? (fun p => p.uuid == v)).map (fun p => if p.uuid == u then f p else p)) := by
  induction l with
  | nil => rfl
  | cons p rest ih =>
    rw [List.map_cons]
    by_cases h : (p.uuid == v) = true
    · rw [List.find?_cons_of_pos rest h, Option.map_some']
      by_cases hu : (p.uuid == u) = true
      · rw [if_pos hu]
        exact List.find?_cons_of_pos _ (by rw [hf]; exact h)
      · rw [if_neg hu]
        exact List.find?_cons_of_pos _ h
    · rw [List.find?_cons_of_neg rest h, ← ih]
      by_cases hu : (p.uuid == u) = true
      · rw [if_pos hu]
        exact List.find?_cons_of_neg _ (by rw [hf]; exact h)
      · rw [if_neg hu]
        exact List.find?_cons_of_neg _ h

/-- Bumping consumer `u` raises exactly `u`'s generation by one. -/
theorem consumerGen_bumpConsumer (s : Store) (u : String) :
    consumerGen (bumpConsumer s u) u = (consumerGen s u).map (· + 1) := by
  unfold consumerGen bumpConsumer findConsumer
  dsimp only
  rw [find?_uuid_map s.consumers u
    (fun c => { c with generation := c.generation + 1 }) (fun c => rfl) u]
  cases h : s.consumers.find? (fun c => c.uuid == u) with
  | none => rfl
  | some c =>
    have hcu : (c.uuid == u) = true := by
      have := List.find?_some h
      exact this
    rw [Option.map_some', if_pos hcu]
    rfl

/-- Bumping consumer `u` leaves every other consumer's generation
unchanged. -/
theorem consumerGen_bumpConsumer_ne (s : Store) (u v : String) (hne : v ≠ u) :
    consumerGen (bumpConsumer s u) v = consumerGen s v := by
  unfold consumerGen bumpConsumer findConsumer
  dsimp only
  rw [find?_uuid_map s.consumers u
    (fun c => { c with generation := c.generation + 1 }) (fun c => rfl) v]
  cases h : s.consumers.find? (fun c => c.uuid == v) with
  | none => rfl
  | some c =>
    have hcv : c.uuid = v := by
      have := List.find?_some h
      exact eq_of_beq this
    have hcu : (c.uuid == u) = false := by
      rw [hcv]
      exact beq_eq_false_iff_ne.mpr hne
    rw [Option.map_some', if_neg (by simp [hcu])]

/-- Bumping provider `u` raises exactly `u`'s generation by one. -/
theorem providerGen_bumpProvider (s : Store) (u : String) :
    providerGen (bumpProvider s u) u = (providerGen s u).map (· + 1) := by
  unfold providerGen bumpProvider mapProvider findProvider
  dsimp only
  rw [find?_uuid_map_provider s.providers u
    (fun p => { p with generation := p.generation + 1 }) (fun p => rfl) u]
  cases h : s.providers.find? (fun p => p.uuid == u) with
  | none => rfl
  | some p =>
    have hpu : (p.uuid == u) = true := by
      have := List.find?_some h
      exact this
    rw [Option.map_some', if_pos hpu]
    rfl

/-- Bumping provider `u` leaves every other provider's generation
unchanged. -/
theorem providerGen_bumpProvider_ne (s : Store) (u v : String) (hne : v ≠ u) :
    providerGen (bumpProvider s u) v = providerGen s v := by
  unfold providerGen bumpProvider mapProvider findProvider
  dsimp only
  rw [find?_uuid_map_provider s.providers u
    (fun p => { p with generation := p.generation + 1 }) (fun p => rfl) v]
  cases h : s.providers.find? (fun p => p.uuid == v) with
  | none => rfl
  | some p =>
    have hpv : p.uuid = v := by
      have := List.find?_some h
      exact eq_of_beq this
    have hpu : (p.uuid == u) = false := by
      rw [hpv]
      exact beq_eq_false_iff_ne.mpr hne
    rw [Option.map_some', if_neg (by simp [hpu])]

/-- Field effect of `checkConsumerGeneration`: only the consumer list
can change. -/
theorem checkConsumerGeneration_ok_fields {cu : String} {cg : Option Int}
    {s s' : Store} (h : checkConsumerGeneration cu cg s = .ok s') :
    s'.providers = s.providers ∧ s'.inventories = s.inventories ∧
      s'.allocations = s.allocations := by
  cases cg with
  | none =>
    cases hfc : findConsumer s cu with
    | some c =>
      simp only [checkConsumerGeneration, hfc] at h
      exact Except.noConfusion h
    | none =>
      simp only [checkConsumerGeneration, hfc] at h
      cases h
      exact ⟨rfl, rfl, rfl⟩
  | some g =>
    cases hfc : findConsumer s cu with
    | some c =>
      simp only [checkConsumerGeneration, hfc] at h
      split at h
      · exact Except.noConfusion h
      · cases h
        exact ⟨rfl, rfl, rfl⟩
    | none =>
      simp only [checkConsumerGeneration, hfc] at h
      split at h
      · exact Except.noConfusion h
      · cases h
        exact ⟨rfl, rfl, rfl⟩

/-- Appending a consumer of a different uuid does not change a
consumer's generation. -/
theorem consumerGen_append_ne (s : Store) (c0 : Consumer) (v : String)
    (hne : v ≠ c0.uuid) :
    consumerGen { s with consumers := s.consumers ++ [c0] } v = consumerGen s v := by
  unfold consumerGen findConsumer
  dsimp only
  rw [List.find?_append]
  have : List.find? (fun c => c.uuid == v) [c0] = none := by
    have : (c0.uuid == v) = false := beq_eq_false_iff_ne.mpr (fun hvv => hne hvv.symm)
    simp [List.find?, this]
  rw [this, Option.or_none]

/-- `checkConsumerGeneration` leaves the generations of other consumers
unchanged. -/
theorem checkConsumerGeneration_ok_gen_ne {cu : String} {cg : Option Int}
    {s s' : Store} (h : checkConsumerGeneration cu cg s = .ok s')
    {v : String} (hne : v ≠ cu) : consumerGen s' v = consumerGen s v := by
  cases cg with
  | none =>
    cases hfc : findConsumer s cu with
    | some c =>
      simp only [checkConsumerGeneration, hfc] at h
      exact Except.noConfusion h
    | none =>
      simp only [checkConsumerGeneration, hfc] at h
      cases h
      exact consumerGen_append_ne s ⟨cu, 0⟩ v hne
  | some g =>
    cases hfc : findConsumer s cu with
    | some c =>
      simp only [checkConsumerGeneration, hfc] at h
      split at h
      · exact Except.noConfusion h
      · cases h
        rfl
    | none =>
      simp only [checkConsumerGeneration, hfc] at h
      split at h
      · exact Except.noConfusion h
      · cases h
        exact consumerGen_append_ne s ⟨cu, 0⟩ v hne

/-- An integer generation expectation that does not match the current
(or MERGE-created) generation makes `checkConsumerGeneration` raise a
ConsumerGenerationConflict. -/
theorem checkConsumerGeneration_mismatch {cu : String} {g : Int} {s : Store}
    (h : (consumerGen s cu).getD 0 ≠ g) :
    ∃ m, checkConsumerGeneration cu (some g) s = .error (.consumerGenerationConflict m) := by
  cases hfc : findConsumer s cu with
  | some c =>
    have hg : c.generation ≠ g := by
      unfold consumerGen at h
      rw [hfc] at h
      simpa using h
    simp only [checkConsumerGeneration, hfc, if_pos hg]
    exact ⟨_, rfl⟩
  | none =>
    have hg : (0 : Int) ≠ g := by
      unfold consumerGen at h
      rw [hfc] at h
      simpa using h
    simp only [checkConsumerGeneration, hfc, if_pos hg]
    exact ⟨_, rfl⟩

/-- A matching integer expectation passes `checkConsumerGeneration`
without changing the store. -/
theorem checkConsumerGeneration_ok_of_match {s : Store} {cu : String} {c : Consumer}
    {g : Int} (hfc : findConsumer s cu = some c) (hg : c.generation = g) :
    checkConsumerGeneration cu (some g) s = .ok s := by
  simp only [checkConsumerGeneration, hfc]
  rw [if_neg (by simp [hg])]

/-- `setAlloc` only changes the allocation list. -/
theorem setAlloc_fields (s : Store) (cu rp rc : String) (amt : Int) :
    (setAlloc s cu rp rc amt).providers = s.providers ∧
      (setAlloc s cu rp rc amt).consumers = s.consumers ∧
      (setAlloc s cu rp rc amt).inventories = s.inventories := by
  unfold setAlloc
  split <;> exact ⟨rfl, rfl, rfl⟩

/-- `delete_consumer_if_no_allocations` only changes the consumer
list. -/
theorem delete_consumer_fields (s : Store) (cu : String) :
    (delete_consumer_if_no_allocations s cu).providers = s.providers ∧
      (delete_consumer_if_no_allocations s cu).inventories = s.inventories ∧
      (delete_consumer_if_no_allocations s cu).allocations = s.allocations := by
  unfold delete_consumer_if_no_allocations
  split <;> exact ⟨rfl, rfl, rfl⟩

/-- The inner allocation-creation loop leaves providers, consumers and
inventories unchanged. -/
theorem cafp_ok_fields {mk : String → String → Err} {cu rp : String}
    {l : List (String × Int)} {s s' : Store}
    (h : createAllocationsForProvider mk cu rp l s = .ok s') :
    s'.providers = s.providers ∧ s'.consumers = s.consumers ∧
      s'.inventories = s.inventories := by
  induction l generalizing s with
  | nil =>
    cases h
    exact ⟨rfl, rfl, rfl⟩
  | cons e rest ih =>
    obtain ⟨rc, amt⟩ := e
    unfold createAllocationsForProvider at h
    split at h
    · obtain ⟨h1, h2, h3⟩ := ih h
      obtain ⟨f1, f2, f3⟩ := setAlloc_fields s cu rp rc amt
      exact ⟨h1.trans f1, h2.trans f2, h3.trans f3⟩
    · exact Except.noConfusion h

/-- The inner allocation-creation loop succeeds when every referenced
inventory exists. -/
theorem cafp_ok_of_invExists {mk : String → String → Err} {cu rp : String}
    (l : List (String × Int)) (s : Store)
    (h : ∀ e ∈ l, invExists s rp e.1 = true) :
    ∃ s', createAllocationsForProvider mk cu rp l s = .ok s' := by
  induction l generalizing s with
  | nil => exact ⟨s, rfl⟩
  | cons e rest ih =>
    obtain ⟨rc, amt⟩ := e
    have he : invExists s rp rc = true := h _ (List.mem_cons_self _ _)
    unfold createAllocationsForProvider
    rw [he]
    simp only [if_true]
    apply ih
    intro e' he'
    rw [invExists_congr (setAlloc_fields s cu rp rc amt).2.2]
    exact h e' (List.mem_cons_of_mem _ he')

/-- If the inner allocation-creation loop succeeds then every referenced
inventory existed beforehand. -/
theorem cafp_invExists_of_ok {mk : String → String → Err} {cu rp : String}
    {l : List (String × Int)} {s s' : Store}
    (h : createAllocationsForProvider mk cu rp l s = .ok s') :
    ∀ e ∈ l, invExists s rp e.1 = true := by
  induction l generalizing s with
  | nil =>
    intro e he
    exact absurd he (List.not_mem_nil e)
  | cons e rest ih =>
    obtain ⟨rc, amt⟩ := e
    unfold createAllocationsForProvider at h
    split at h
    · intro e' he'
      rcases List.mem_cons.mp he' with rfl | hmem
      · assumption
      · have := ih h e' hmem
        rwa [invExists_congr (setAlloc_fields s cu rp rc amt).2.2] at this
    · exact Except.noConfusion h

/-- The outer allocation-creation loop leaves providers, consumers and
inventories unchanged. -/
theorem createAllocations_ok_fields {mk : String → String → Err} {cu : String}
    {l : List (String × List (String × Int))} {s s' : Store}
    (h : createAllocations mk cu l s = .ok s') :
    s'.providers = s.providers ∧ s'.consumers = s.consumers ∧
      s'.inventories = s.inventories := by
  induction l generalizing s with
  | nil =>
    cases h
    exact ⟨rfl, rfl, rfl⟩
  | cons e rest ih =>
    obtain ⟨rp, rcs⟩ := e
    unfold createAllocations at h
    split at h
    · exact Except.noConfusion h
    · next s1 heq =>
      obtain ⟨h1, h2, h3⟩ := ih h
      obtain ⟨f1, f2, f3⟩ := cafp_ok_fields heq
      exact ⟨h1.trans f1, h2.trans f2, h3.trans f3⟩

/-- The outer allocation-creation loop succeeds when every referenced
inventory exists. -/
theorem createAllocations_ok_of_invExists {mk : String → String → Err} {cu : String}
    (l : List (String × List (String × Int))) (s : Store)
    (h : ∀ rp rcs, (rp, rcs) ∈ l → ∀ e ∈ rcs, invExists s rp e.1 = true) :
    ∃ s', createAllocations mk cu l s = .ok s' := by
  induction l generalizing s with
  | nil => exact ⟨s, rfl⟩
  | cons ent rest ih =>
    obtain ⟨rp, rcs⟩ := ent
    obtain ⟨s1, hs1⟩ := @cafp_ok_of_invExists mk cu rp rcs s
      (h rp rcs (List.mem_cons_self _ _))
    unfold createAllocations
    rw [hs1]
    apply ih
    intro rp' rcs' hmem e' he'
    rw [invExists_congr (cafp_ok_fields hs1).2.2]
    exact h rp' rcs' (List.mem_cons_of_mem _ hmem) e' he'

/-- If the outer allocation-creation loop succeeds then every referenced
inventory existed beforehand. -/
theorem createAllocations_invExists_of_ok {mk : String → String → Err} {cu : String}
    {l : List (String × List (String × Int))} {s s' : Store}
    (h : createAllocations mk cu l s = .ok s') :
    ∀ rp rcs, (rp, rcs) ∈ l → ∀ e ∈ rcs, invExists s rp e.1 = true := by
  induction l generalizing s with
  | nil =>
    intro rp rcs hmem
    exact absurd hmem (List.not_mem_nil _)
  | cons ent rest ih =>
    obtain ⟨rp0, rcs0⟩ := ent
    unfold createAllocations at h
    split at h
    · exact Except.noConfusion h
    · next s1 heq =>
      intro rp rcs hmem e he
      rcases List.mem_cons.mp hmem with hhead | htail
      · cases hhead
        exact cafp_invExists_of_ok heq e he
      · have := ih h rp rcs htail e he
        rwa [invExists_congr (cafp_ok_fields heq).2.2] at this

/-! ## Claim theorems -/

/-- C2: in candidate search a provider's inventory for a requested class
with amount A qualifies iff
`(total - reserved) * allocation_ratio - sum(used) >= A`,
`min_unit <= A <= max_unit` and `(A - min_unit) % step_size = 0`
(first two conjuncts, characterizing the per-class filter and the
membership in `_get_providers_with_capacity`'s per-class provider set);
in particular, with total 100, reserved 20, ratio 2.0 and used 10 a
request of 150 qualifies and 151 does not, and with min_unit 4,
max_unit 20, step_size 4 an amount of 10 is rejected while 12 is
accepted (remaining conjuncts, on `capStore`). -/
theorem c2_capacity_and_quantization :
    (∀ (s : Store) (rp rc : String) (amount : Int),
      inventoryQualifies s rp rc amount = true ↔
        ∃ inv, findInventory s rp rc = some inv ∧
          ((inv.total - inv.reserved : Int) : Rat) * inv.alloc_ratio
              - (invUsed s rp rc : Rat) ≥ (amount : Rat) ∧
          inv.min_unit ≤ amount ∧ amount ≤ inv.max_unit ∧
          (amount - inv.min_unit) % inv.step_size = 0) ∧
    (∀ (s : Store) (rc : String) (amount : Int) (u : String),
      u ∈ providersForClass s rc amount ↔
        ∃ p ∈ s.providers, p.uuid = u ∧ inventoryQualifies s u rc amount = true) ∧
    inventoryQualifies capStore "P1" "VCPU" 150 = true ∧
    inventoryQualifies capStore "P1" "VCPU" 151 = false ∧
    inventoryQualifies capStore "P2" "VCPU" 10 = false ∧
    inventoryQualifies capStore "P2" "VCPU" 12 = true := by
  refine ⟨?_, ?_, by decide, by decide, by decide, by decide⟩
  · intro s rp rc amount
    unfold inventoryQualifies
    cases h : findInventory s rp rc with
    | none => simp
    | some inv =>
      simp only [capacityOk, Bool.and_eq_true, decide_eq_true_eq, beq_iff_eq,
        Option.some.injEq, ge_iff_le, capacityOk_avail_iff]
      constructor
      · rintro ⟨⟨⟨h1, h2⟩, h3⟩, h4⟩
        exact ⟨inv, rfl, h1, h2, h3, h4⟩
      · rintro ⟨inv', hinv, h1, h2, h3, h4⟩
        cases hinv
        exact ⟨⟨⟨h1, h2⟩, h3⟩, h4⟩
  · intro s rc amount u
    unfold providersForClass
    simp only [List.mem_map, List.mem_filter]
    constructor
    · rintro ⟨p, ⟨hp, hq⟩, rfl⟩
      exact ⟨p, hp, rfl, hq⟩
    · rintro ⟨p, hp, rfl, hq⟩
      exact ⟨p, ⟨hp, hq⟩, rfl⟩

/-- Modelled from the spec's words (§4.1 Concurrency Controller): a
mutating operation on a provider "accepts an expected generation",
reads the current generation inside the transaction, and on mismatch
aborts with a GenerationConflict.  An operation whose request carries no
generation field can only be read as ignoring the expectation
argument. -/
def specGenerationGuarded (op : Int → Store → Except Err Store) (entity : String) : Prop :=
  ∀ (g : Int) (s : Store) (p : Provider), findProvider s entity = some p →
    p.generation ≠ g →
    ∃ m, op g s = .error (.resourceProviderGenerationConflict m)

/-- C1, counterexample: `delete_all_inventories` is a mutating operation
on a provider, yet it accepts no expected generation and never aborts
with a GenerationConflict: on a store whose provider P1 is at generation
5, a caller whose expectation (3) cannot match still sees the operation
succeed and mutate (the claim's guard property is false for it). -/
theorem c1_counterexample_delete_all_inventories :
    ¬ specGenerationGuarded (fun _ s => delete_all_inventories "P1" s) "P1" := by
  intro h
  obtain ⟨m, hm⟩ := h 3 genFiveStore ⟨"P1", "cn1", 5, none, false⟩ (by decide) (by decide)
  dsimp only at hm
  rw [show delete_all_inventories "P1" genFiveStore = .ok genFiveStoreAfter from by decide]
    at hm
  exact Except.noConfusion hm

/-- C1, amended: every generation-accepting mutating handler
(`put_provider_traits`, `update_resource_provider`) reads the current
generation inside its transaction and on mismatch aborts with a
ResourceProviderGenerationConflict — the Except embedding makes the
aborted transaction leave no visible state change by construction —
but `delete_all_inventories` accepts no expected generation at all and
unconditionally deletes the provider's inventories and bumps its
generation (last two conjuncts, on the concrete generation-5 store). -/
theorem c1_generation_guard_amended :
    (∀ (u : String) (g : Int) (ts : List String) (s : Store) (p : Provider),
      findProvider s u = some p → p.generation ≠ g →
      put_provider_traits u (some g) ts s =
        .error (.resourceProviderGenerationConflict
          ("Generation mismatch for resource provider " ++ u ++ "."))) ∧
    (∀ (u : String) (g : Int) (s : Store) (p : Provider),
      findProvider s u = some p → p.generation ≠ g →
      update_resource_provider u none (some g) none s =
        .error (.resourceProviderGenerationConflict
          ("Generation mismatch for resource provider " ++ u ++ "."))) ∧
    delete_all_inventories "P1" genFiveStore = .ok genFiveStoreAfter ∧
    providerGen genFiveStoreAfter "P1" = some 6 := by
  refine ⟨?_, ?_, by decide, by decide⟩
  · intro u g ts s p hfp hg
    simp only [put_provider_traits, hfp]
    rw [if_pos hg]
  · intro u g s p hfp hg
    have hgg : g ≠ p.generation := fun hgg => hg hgg.symm
    simp [update_resource_provider, hfp, hgg]

/-- Witness for `c1_generation_guard_amended` at concrete inputs: both
guarded handlers abort with a generation conflict on the generation-5
store when the caller expects 3. -/
theorem c1_generation_guard_amended_witness :
    put_provider_traits "P1" (some 3) ["HW_X"] genFiveStore =
      .error (.resourceProviderGenerationConflict
        "Generation mismatch for resource provider P1.") ∧
    update_resource_provider "P1" none (some 3) none genFiveStore =
      .error (.resourceProviderGenerationConflict
        "Generation mismatch for resource provider P1.") :=
  ⟨c1_generation_guard_amended.1 "P1" 3 ["HW_X"] genFiveStore
      ⟨"P1", "cn1", 5, none, false⟩ (by decide) (by decide),
    c1_generation_guard_amended.2.1 "P1" 3 genFiveStore
      ⟨"P1", "cn1", 5, none, false⟩ (by decide) (by decide)⟩

/-- Phase 1 of the multi-consumer writer raises an error whenever any
batch entry's integer generation expectation does not match the current
(or MERGE-created) generation of its consumer. -/
theorem postPhase1_error_of_mismatch (batch : List ConsumerWrite) :
    ∀ (s : Store) (w : ConsumerWrite) (g : Int),
    (batch.map ConsumerWrite.uuid).Nodup → w ∈ batch →
    w.consumer_generation = some g → (consumerGen s w.uuid).getD 0 ≠ g →
    ∃ e, postPhase1 batch s = .error e := by
  induction batch with
  | nil =>
    intro s w g _ hmem
    exact absurd hmem (List.not_mem_nil w)
  | cons w0 rest ih =>
    intro s w g hnodup hmem hcg hgne
    rcases List.mem_cons.mp hmem with rfl | hmem'
    · obtain ⟨m, hm⟩ := @checkConsumerGeneration_mismatch w.uuid g s hgne
      refine ⟨.consumerGenerationConflict m, ?_⟩
      unfold postPhase1
      rw [hcg, hm]
    · cases hc : checkConsumerGeneration w0.uuid w0.consumer_generation s with
      | error e =>
        refine ⟨e, ?_⟩
        unfold postPhase1
        rw [hc]
      | ok s1 =>
        have hne : w.uuid ≠ w0.uuid := by
          intro heq
          have hmm : w.uuid ∈ rest.map ConsumerWrite.uuid := List.mem_map_of_mem _ hmem'
          rw [heq] at hmm
          exact (List.nodup_cons.mp hnodup).1 hmm
        have hgen : consumerGen s1 w.uuid = consumerGen s w.uuid :=
          checkConsumerGeneration_ok_gen_ne hc hne
        obtain ⟨e, he⟩ := ih s1 w g (List.nodup_cons.mp hnodup).2 hmem' hcg
          (by rw [hgen]; exact hgne)
        refine ⟨e, ?_⟩
        unfold postPhase1
        rw [hc]
        exact he

/-- C3: a multi-consumer allocation write is all-or-nothing.  First
conjunct: if any consumer of the batch carries an integer generation
expectation that does not match, the whole `post_allocations` call
returns an error — and an error result is a rolled-back transaction, so
no consumer's allocations change and no speculatively-created consumer
survives (the embedding returns the untouched pre-state to the caller).
Remaining conjuncts: the concrete scenario — a batch of new consumer X
(expectation null) and consumer Y expecting generation 3 while at 2
fails whole with Y's ConsumerGenerationConflict, and X does not exist in
the (unchanged) store. -/
theorem c3_batch_all_or_nothing :
    (∀ (batch : List ConsumerWrite) (s : Store) (w : ConsumerWrite) (g : Int),
      (batch.map ConsumerWrite.uuid).Nodup → w ∈ batch →
      w.consumer_generation = some g → (consumerGen s w.uuid).getD 0 ≠ g →
      ∃ e, post_allocations batch s = .error e) ∧
    post_allocations conflictBatch batchStore =
      .error (.consumerGenerationConflict
        "consumer generation conflict - expected 3 but got 2") ∧
    findConsumer batchStore "X" = none := by
  refine ⟨?_, by decide, by decide⟩
  intro batch s w g hnodup hmem hcg hgne
  obtain ⟨e, he⟩ := postPhase1_error_of_mismatch batch s w g hnodup hmem hcg hgne
  refine ⟨e, ?_⟩
  unfold post_allocations
  rw [he]

/-- Witness for `c3_batch_all_or_nothing` at the concrete scenario
batch: consumer Y's stale expectation alone forces an error. -/
theorem c3_batch_all_or_nothing_witness :
    ∃ e, post_allocations conflictBatch batchStore = .error e :=
  c3_batch_all_or_nothing.1 conflictBatch batchStore
    ⟨"Y", some 3, [("P1", [("VCPU", 1)])]⟩ 3 (by decide) (by decide) (by decide) (by decide)

/-- Result of reshaping `allocStore` with an empty allocation map for
C1: the consumer survives, with zero allocations and a bumped
generation. -/
def reshapeEmptyAfter : Store :=
  { providers := [⟨"P1", "cn1", 1, none, false⟩]
    consumers := [⟨"C1", 5⟩]
    inventories := [("P1", "VCPU", ⟨100, 0, 1, 2147483647, 1, 1⟩)]
    allocations := []
    traits := []
    aggregates := []
    resource_classes := ["VCPU"] }

/-- C4, evaluated at the failing input: DELETE /allocations/{consumer}
on a consumer with one allocation removes the CONSUMES edges but leaves
the Consumer node (generation 4) in the store with zero allocations
(first three conjuncts), and reshaping the same consumer to an empty
allocation map likewise leaves it in the store — with zero allocations
and a bumped generation (last three conjuncts).  Both contradict the
claim that no consumer with zero allocations persists. -/
theorem c4_zero_allocation_consumer_persists :
    delete_allocations "C1" allocStore = .ok allocStoreNoAllocs ∧
    findConsumer allocStoreNoAllocs "C1" = some ⟨"C1", 4⟩ ∧
    consumerAllocs allocStoreNoAllocs "C1" = [] ∧
    reshape [⟨"P1", 0, [("VCPU", ⟨100, none, none, none, none, none⟩)]⟩]
        [⟨"C1", some 4, []⟩] allocStore = .ok reshapeEmptyAfter ∧
    findConsumer reshapeEmptyAfter "C1" = some ⟨"C1", 5⟩ ∧
    consumerAllocs reshapeEmptyAfter "C1" = [] := by
  refine ⟨by decide, by decide, by decide, by decide, by decide, by decide⟩

/-- Mapping the identity update over one provider is a no-op. -/
theorem mapProvider_id (s : Store) (u : String) :
    mapProvider s u (fun r => r) = s := by
  unfold mapProvider
  have : (s.providers.map fun p => if p.uuid == u then p else p) = s.providers := by
    simp
  rw [this]

/-- A generation-only `update_resource_provider` with the matching
expected generation succeeds and is exactly a generation bump. -/
theorem update_ok_of_match {s : Store} {u : String} {p : Provider}
    (hfp : findProvider s u = some p) :
    update_resource_provider u none (some p.generation) none s = .ok (bumpProvider s u) := by
  simp only [update_resource_provider, hfp]
  have hmatch : (fun r : Provider =>
      { r with name := (match (none : Option String) with | some n => n | none => r.name) })
      = fun r : Provider => r := by
    funext r
    rfl
  simp [hmatch, mapProvider_id]

/-- Bumping a found provider is visible in the lookup. -/
theorem findProvider_bumpProvider_self {s : Store} {u : String} {p : Provider}
    (hfp : findProvider s u = some p) :
    findProvider (bumpProvider s u) u = some { p with generation := p.generation + 1 } := by
  have hu : (p.uuid == u) = true := by
    rw [findProvider_eq_some_uuid hfp]
    simp
  unfold findProvider at hfp ⊢
  unfold bumpProvider mapProvider
  dsimp only
  rw [find?_uuid_map_provider s.providers u
    (fun q => { q with generation := q.generation + 1 }) (fun q => rfl) u]
  rw [hfp, Option.map_some', if_pos hu]

/-- N sequenced `update_resource_provider` calls, each supplying the
provider's current generation as its expectation (the claim's
"correctly-supplied expected generations"). -/
def bumpViaUpdateN (u : String) : Nat → Store → Except Err Store
  | 0, s => .ok s
  | n + 1, s =>
    match findProvider s u with
    | some p =>
      match update_resource_provider u none (some p.generation) none s with
      | .error e => .error e
      | .ok s' => bumpViaUpdateN u n s'
    | none => .error (.notFound "provider not found")

/-- The N-fold correctly-expected update sequence succeeds and adds
exactly N to the provider's generation. -/
theorem bumpViaUpdateN_ok (u : String) (N : Nat) :
    ∀ (s : Store) (p : Provider), findProvider s u = some p →
    ∃ s', bumpViaUpdateN u N s = .ok s' ∧ providerGen s' u = some (p.generation + N) := by
  induction N with
  | zero =>
    intro s p hfp
    refine ⟨s, rfl, ?_⟩
    unfold providerGen
    rw [hfp]
    simp
  | succ n ih =>
    intro s p hfp
    have hupd := update_ok_of_match hfp
    have hnext := findProvider_bumpProvider_self hfp
    obtain ⟨s', hs', hgen⟩ := ih (bumpProvider s u) { p with generation := p.generation + 1 } hnext
    refine ⟨s', ?_, ?_⟩
    · unfold bumpViaUpdateN
      rw [hfp]
      dsimp only
      rw [hupd]
      exact hs'
    · rw [hgen]
      congr 1
      push_cast
      ring

/-- A newly created resource provider has generation 0. -/
theorem create_resource_provider_gen0 {name u : String} {parent : Option String}
    {s s' : Store} (h : create_resource_provider name u parent s = .ok s') :
    providerGen s' u = some 0 := by
  unfold create_resource_provider at h
  split at h
  · exact Except.noConfusion h
  split at h
  · exact Except.noConfusion h
  split at h
  · exact Except.noConfusion h
  split at h
  · exact Except.noConfusion h
  next hnodup =>
  split at h
  · exact Except.noConfusion h
  next hnoname =>
  have hnone : findProvider s u = none := by
    rcases hfp : findProvider s u with _ | q
    · rfl
    · exact absurd (by rw [hfp]; rfl) hnodup
  have hgoal : ∀ (pr : Option String),
      providerGen { s with providers := s.providers ++
        [{ uuid := u, name := name, generation := 0, parent := pr, disabled := false }] } u
        = some 0 := by
    intro pr
    unfold providerGen findProvider
    dsimp only
    rw [List.find?_append]
    unfold findProvider at hnone
    rw [hnone]
    simp [List.find?]
  cases parent with
  | some q =>
    dsimp only at h
    by_cases hq : (findProvider s q).isNone = true
    · rw [if_pos hq] at h
      exact Except.noConfusion h
    · rw [if_neg hq] at h
      cases h
      exact hgoal (some q)
  | none =>
    dsimp only at h
    cases h
    exact hgoal none

/-- A single-consumer allocation write whose integer generation
expectation matches and whose referenced inventories all exist succeeds;
when the requested map is non-empty the consumer generation becomes
exactly the expectation plus one. -/
theorem put_allocations_ok_gen {s : Store} {cu : String} {c : Consumer} {g : Int}
    (allocs : List (String × List (String × Int)))
    (hfc : findConsumer s cu = some c) (hg : c.generation = g)
    (hinv : ∀ rp rcs, (rp, rcs) ∈ allocs → ∀ e ∈ rcs, invExists s rp e.1 = true) :
    ∃ s', put_allocations cu (some g) allocs s = .ok s' ∧
      (allocs ≠ [] → consumerGen s' cu = some (g + 1)) := by
  have hchk := checkConsumerGeneration_ok_of_match hfc hg
  have hinv2 : ∀ rp rcs, (rp, rcs) ∈ allocs → ∀ e ∈ rcs,
      invExists (deleteConsumerAllocations s cu) rp e.1 = true := by
    intro rp rcs hm e he
    exact hinv rp rcs hm e he
  obtain ⟨s3, hs3⟩ := createAllocations_ok_of_invExists allocs
    (deleteConsumerAllocations s cu) hinv2
  unfold put_allocations
  rw [hchk]
  dsimp only
  rw [hs3]
  dsimp only
  by_cases hempty : allocs.isEmpty = true
  · rw [if_pos hempty]
    refine ⟨_, rfl, ?_⟩
    intro hne
    exact absurd (List.isEmpty_iff.mp hempty) hne
  · rw [if_neg hempty]
    refine ⟨_, rfl, ?_⟩
    intro _
    rw [consumerGen_bumpConsumer]
    have h3 : consumerGen s3 cu = consumerGen (deleteConsumerAllocations s cu) cu := by
      unfold consumerGen
      rw [findConsumer_congr (createAllocations_ok_fields hs3).2.1]
    have hdel : consumerGen (deleteConsumerAllocations s cu) cu = some g := by
      unfold consumerGen
      rw [@findConsumer_congr s (deleteConsumerAllocations s cu) rfl cu]
      rw [hfc]
      simp [hg]
    rw [h3, hdel]
    rfl

/-- C5: providers are created with generation 0 (first conjunct); N
sequenced `update_resource_provider` calls with correctly-supplied
expected generations succeed and leave the provider at initial + N
(second conjunct, by induction; a failed update is an error result, i.e.
a rolled-back transaction that changes nothing); a successful
single-consumer allocation write with matching expectation g and a
non-empty map leaves the consumer at generation g + 1 (third
conjunct). -/
theorem c5_generation_monotonicity :
    (∀ (name u : String) (parent : Option String) (s s' : Store),
      create_resource_provider name u parent s = .ok s' → providerGen s' u = some 0) ∧
    (∀ (u : String) (N : Nat) (s : Store) (p : Provider), findProvider s u = some p →
      ∃ s', bumpViaUpdateN u N s = .ok s' ∧
        providerGen s' u = some (p.generation + N)) ∧
    (∀ (s : Store) (cu : String) (c : Consumer) (g : Int)
        (allocs : List (String × List (String × Int))),
      findConsumer s cu = some c → c.generation = g → allocs ≠ [] →
      (∀ rp rcs, (rp, rcs) ∈ allocs → ∀ e ∈ rcs, invExists s rp e.1 = true) →
      ∃ s', put_allocations cu (some g) allocs s = .ok s' ∧
        consumerGen s' cu = some (g + 1)) := by
  refine ⟨fun _ _ _ _ _ h => create_resource_provider_gen0 h,
    fun u N s p h => bumpViaUpdateN_ok u N s p h,
    fun s cu c g allocs hfc hg hne hinv => ?_⟩
  obtain ⟨s', h1, h2⟩ := put_allocations_ok_gen allocs hfc hg hinv
  exact ⟨s', h1, h2 hne⟩

/-- Store resulting from creating provider P9 on `batchStore`. -/
def createdAfter : Store :=
  { batchStore with providers := batchStore.providers ++ [⟨"P9", "nw", 0, none, false⟩] }

/-- Witness for `c5_generation_monotonicity` at concrete inputs: a fresh
provider is created at generation 0; three correctly-expected updates
take provider P1 from generation 0 to 3; a matching allocation write
takes consumer C1 from generation 4 to 5. -/
theorem c5_generation_monotonicity_witness :
    providerGen createdAfter "P9" = some 0 ∧
    (∃ s', bumpViaUpdateN "P1" 3 batchStore = .ok s' ∧
      providerGen s' "P1" = some (0 + (3 : Nat))) ∧
    (∃ s', put_allocations "C1" (some 4) [("P1", [("VCPU", 16)])] allocStore = .ok s' ∧
      consumerGen s' "C1" = some (4 + 1)) :=
  ⟨c5_generation_monotonicity.1 "nw" "P9" none batchStore createdAfter (by decide),
    c5_generation_monotonicity.2.1 "P1" 3 batchStore ⟨"P1", "cn1", 0, none, false⟩ (by decide),
    c5_generation_monotonicity.2.2 allocStore "C1" ⟨"C1", 4⟩ 4 [("P1", [("VCPU", 16)])]
      (by decide) (by decide) (by decide)
      (by
        intro rp rcs hm e he
        rw [List.mem_singleton] at hm
        injection hm with h1 h2
        subst h1
        subst h2
        rw [List.mem_singleton] at he
        subst he
        decide)⟩

/-- Result of writing a 1,000,000-unit VCPU allocation for C1 on
`allocStore` (available capacity is 150). -/
def overCapAfterPut : Store :=
  { providers := [⟨"P1", "cn1", 0, none, false⟩]
    consumers := [⟨"C1", 5⟩]
    inventories := [("P1", "VCPU", ⟨100, 20, 1, 1000, 1, 2⟩)]
    allocations := [⟨"C1", "P1", "VCPU", 1000000⟩]
    traits := []
    aggregates := []
    resource_classes := ["VCPU"] }

/-- Result of a reshape that installs a quantized inventory
(min_unit 4, max_unit 20, step_size 4, total 100) and in the same call
writes a 999,999-unit allocation against it for new consumer Z. -/
def overCapAfterReshape : Store :=
  { providers := [⟨"P1", "cn1", 1, none, false⟩]
    consumers := [⟨"C1", 4⟩, ⟨"Z", 1⟩]
    inventories := [("P1", "VCPU", ⟨100, 0, 4, 20, 4, 1⟩)]
    allocations := [⟨"Z", "P1", "VCPU", 999999⟩]
    traits := []
    aggregates := []
    resource_classes := ["VCPU"] }

/-- C10: the transactional allocation writer never compares requested
amounts against available capacity or against
min_unit/max_unit/step_size.  First conjunct: any single-consumer write
whose generation expectation matches and whose referenced inventories
exist succeeds, with no hypothesis whatsoever on the amounts.  Concrete
conjuncts: `put_allocations` records 1,000,000 VCPU against an
inventory whose available capacity is 150, and `reshape` records
999,999 VCPU against an inventory with min_unit 4, max_unit 20,
step_size 4 — both succeed and the amounts are stored as requested. -/
theorem c10_writer_skips_capacity_checks :
    (∀ (s : Store) (cu : String) (c : Consumer) (g : Int)
        (allocs : List (String × List (String × Int))),
      findConsumer s cu = some c → c.generation = g →
      (∀ rp rcs, (rp, rcs) ∈ allocs → ∀ e ∈ rcs, invExists s rp e.1 = true) →
      ∃ s', put_allocations cu (some g) allocs s = .ok s') ∧
    put_allocations "C1" (some 4) [("P1", [("VCPU", 1000000)])] allocStore =
      .ok overCapAfterPut ∧
    invUsed overCapAfterPut "P1" "VCPU" = 1000000 ∧
    reshape [⟨"P1", 0, [("VCPU", ⟨100, none, some 4, some 20, some 4, none⟩)]⟩]
        [⟨"Z", none, [("P1", [("VCPU", 999999)])]⟩] allocStore = .ok overCapAfterReshape ∧
    invUsed overCapAfterReshape "P1" "VCPU" = 999999 := by
  refine ⟨?_, by decide, by decide, by decide, by decide⟩
  intro s cu c g allocs hfc hg hinv
  obtain ⟨s', h1, _⟩ := put_allocations_ok_gen allocs hfc hg hinv
  exact ⟨s', h1⟩

/-- Witness for `c10_writer_skips_capacity_checks` at a concrete input:
the general success conjunct applied to the over-capacity write. -/
theorem c10_writer_skips_capacity_checks_witness :
    ∃ s', put_allocations "C1" (some 4) [("P1", [("VCPU", 1000000)])] allocStore =
      .ok s' :=
  c10_writer_skips_capacity_checks.1 allocStore "C1" ⟨"C1", 4⟩ 4
    [("P1", [("VCPU", 1000000)])] (by decide) (by decide)
    (by
      intro rp rcs hm e he
      rw [List.mem_singleton] at hm
      injection hm with h1 h2
      subst h1
      subst h2
      rw [List.mem_singleton] at he
      subst he
      decide)

/-- The phase-1 inventory-creation loop never touches the provider
list. -/
theorem reshapeCreateInventories_providers (u : String)
    (l : List (String × ReshapeInventory)) :
    ∀ s : Store, (reshapeCreateInventories u l s).providers = s.providers := by
  induction l with
  | nil => intro s; rfl
  | cons e rest ih =>
    intro s
    unfold reshapeCreateInventories at ih ⊢
    rw [List.foldl_cons]
    rw [ih]
    dsimp only
    split <;> rfl

/-- A reshape phase-1 step for provider `e.uuid` does not change any
other provider's generation. -/
theorem reshapeProviderStep_gen_ne {e : ProviderInvReplace} {s s' : Store}
    (h : reshapeProviderStep e s = .ok s') {v : String} (hne : v ≠ e.uuid) :
    providerGen s' v = providerGen s v := by
  unfold reshapeProviderStep at h
  cases hfp : findProvider s e.uuid with
  | none =>
    rw [hfp] at h
    exact Except.noConfusion h
  | some p =>
    rw [hfp] at h
    dsimp only at h
    split at h
    · exact Except.noConfusion h
    · cases h
      rw [providerGen_bumpProvider_ne _ _ _ hne]
      unfold providerGen
      rw [findProvider_congr (reshapeCreateInventories_providers e.uuid e.inventories _) v]
      rfl

/-- A reshape phase-1 step whose expected provider generation does not
match the current one (or whose provider is missing) raises an error. -/
theorem reshapeProviderStep_mismatch {e : ProviderInvReplace} {s : Store}
    (h : providerGen s e.uuid ≠ some e.resource_provider_generation) :
    ∃ err, reshapeProviderStep e s = .error err := by
  unfold reshapeProviderStep
  cases hfp : findProvider s e.uuid with
  | none => exact ⟨_, rfl⟩
  | some p =>
    have hg : p.generation ≠ e.resource_provider_generation := by
      unfold providerGen at h
      rw [hfp] at h
      simpa using h
    dsimp only
    rw [if_pos hg]
    exact ⟨_, rfl⟩

/-- Reshape phase 1 raises an error whenever any entry's expected
provider generation does not match. -/
theorem reshapePhase1_error_of_mismatch (invs : List ProviderInvReplace) :
    ∀ (s : Store) (e : ProviderInvReplace),
    (invs.map ProviderInvReplace.uuid).Nodup → e ∈ invs →
    providerGen s e.uuid ≠ some e.resource_provider_generation →
    ∃ err, reshapePhase1 invs s = .error err := by
  induction invs with
  | nil =>
    intro s e _ hmem
    exact absurd hmem (List.not_mem_nil e)
  | cons e0 rest ih =>
    intro s e hnodup hmem hgne
    rcases List.mem_cons.mp hmem with rfl | hmem'
    · obtain ⟨err, herr⟩ := reshapeProviderStep_mismatch hgne
      refine ⟨err, ?_⟩
      unfold reshapePhase1
      rw [herr]
    · cases hstep : reshapeProviderStep e0 s with
      | error err =>
        refine ⟨err, ?_⟩
        unfold reshapePhase1
        rw [hstep]
      | ok s1 =>
        have hne : e.uuid ≠ e0.uuid := by
          intro heq
          have hmm : e.uuid ∈ rest.map ProviderInvReplace.uuid :=
            List.mem_map_of_mem _ hmem'
          rw [heq] at hmm
          exact (List.nodup_cons.mp hnodup).1 hmm
        have hgen : providerGen s1 e.uuid = providerGen s e.uuid :=
          reshapeProviderStep_gen_ne hstep hne
        obtain ⟨err, herr⟩ := ih s1 e (List.nodup_cons.mp hnodup).2 hmem'
          (by rw [hgen]; exact hgne)
        refine ⟨err, ?_⟩
        unfold reshapePhase1
        rw [hstep]
        exact herr

/-- C6: reshape commits inventory and allocation replacements as one
transaction.  First conjunct: any provider-generation mismatch (or
missing provider) anywhere in the inventory side makes the whole
`reshape` call return an error — and an error result is the
rolled-back transaction, so neither inventories nor allocations change.
Second conjunct, concrete: a reshape whose inventory side is valid but
whose allocation side carries a stale consumer expectation (Y expects 3,
is at 2) fails whole with a ConsumerGenerationConflict. -/
theorem c6_reshape_single_transaction :
    (∀ (invs : List ProviderInvReplace) (allocs : List ConsumerWrite) (s : Store)
        (e : ProviderInvReplace),
      (invs.map ProviderInvReplace.uuid).Nodup → e ∈ invs →
      providerGen s e.uuid ≠ some e.resource_provider_generation →
      ∃ err, reshape invs allocs s = .error err) ∧
    reshape [⟨"P1", 0, [("VCPU", ⟨100, none, none, none, none, none⟩)]⟩]
        [⟨"Y", some 3, [("P1", [("VCPU", 1)])]⟩] batchStore =
      .error (.consumerGenerationConflict
        "consumer generation conflict - expected 3 but got 2") := by
  refine ⟨?_, by decide⟩
  intro invs allocs s e hnodup hmem hgne
  obtain ⟨err, herr⟩ := reshapePhase1_error_of_mismatch invs s e hnodup hmem hgne
  refine ⟨err, ?_⟩
  unfold reshape
  rw [if_neg (by simp [List.isEmpty_iff, List.ne_nil_of_mem hmem])]
  rw [herr]

/-- Witness for `c6_reshape_single_transaction` at a concrete input: a
stale provider expectation (7 against current generation 0) alone makes
reshape fail. -/
theorem c6_reshape_single_transaction_witness :
    ∃ err, reshape [⟨"P1", 7, []⟩] [] batchStore = .error err :=
  c6_reshape_single_transaction.1 [⟨"P1", 7, []⟩] [] batchStore
    ⟨"P1", 7, []⟩ (by decide) (by decide) (by decide)

/-- A successful single-consumer write implies every referenced
(provider, resource class) pair had an inventory in the pre-state. -/
theorem put_allocations_invExists_of_ok {cu : String} {cg : Option Int}
    {allocs : List (String × List (String × Int))} {s s' : Store}
    (h : put_allocations cu cg allocs s = .ok s') :
    ∀ rp rcs, (rp, rcs) ∈ allocs → ∀ e ∈ rcs, invExists s rp e.1 = true := by
  unfold put_allocations at h
  cases hchk : checkConsumerGeneration cu cg s with
  | error e0 =>
    rw [hchk] at h
    exact Except.noConfusion h
  | ok s1 =>
    rw [hchk] at h
    dsimp only at h
    cases hca : createAllocations putMissingInvErr cu allocs
        (deleteConsumerAllocations s1 cu) with
    | error e0 =>
      rw [hca] at h
      exact Except.noConfusion h
    | ok s3 =>
      intro rp rcs hm e he
      have hx := createAllocations_invExists_of_ok hca rp rcs hm e he
      have hfields : (deleteConsumerAllocations s1 cu).inventories = s.inventories := by
        show s1.inventories = s.inventories
        exact (checkConsumerGeneration_ok_fields hchk).2.1
      rwa [invExists_congr hfields] at hx

/-- Phase 1 of the multi-consumer writer never changes inventories. -/
theorem postPhase1_inventories (batch : List ConsumerWrite) :
    ∀ {s s' : Store}, postPhase1 batch s = .ok s' → s'.inventories = s.inventories := by
  induction batch with
  | nil =>
    intro s s' h
    cases h
    rfl
  | cons w rest ih =>
    intro s s' h
    unfold postPhase1 at h
    cases hchk : checkConsumerGeneration w.uuid w.consumer_generation s with
    | error e0 =>
      rw [hchk] at h
      exact Except.noConfusion h
    | ok s1 =>
      rw [hchk] at h
      exact (ih h).trans (checkConsumerGeneration_ok_fields hchk).2.1

/-- A successful phase 2 of the multi-consumer writer implies every
referenced pair had an inventory at its start, and leaves inventories
unchanged. -/
theorem postPhase2_invExists_of_ok (batch : List ConsumerWrite) :
    ∀ {s s' : Store}, postPhase2 batch s = .ok s' →
    s'.inventories = s.inventories ∧
      ∀ w ∈ batch, ∀ rp rcs, (rp, rcs) ∈ w.allocations →
        ∀ e ∈ rcs, invExists s rp e.1 = true := by
  induction batch with
  | nil =>
    intro s s' h
    cases h
    exact ⟨rfl, fun w hw => absurd hw (List.not_mem_nil w)⟩
  | cons w rest ih =>
    intro s s' h
    unfold postPhase2 at h
    dsimp only at h
    cases hca : createAllocations postMissingInvErr w.uuid w.allocations
        (deleteConsumerAllocations s w.uuid) with
    | error e0 =>
      rw [hca] at h
      exact Except.noConfusion h
    | ok s2 =>
      rw [hca] at h
      obtain ⟨hinvs, hrest⟩ := ih h
      have hs2 : s2.inventories = s.inventories := by
        have := (createAllocations_ok_fields hca).2.2
        exact this
      have hnexts : (if w.allocations.isEmpty then delete_consumer_if_no_allocations s2 w.uuid
          else bumpConsumer s2 w.uuid).inventories = s.inventories := by
        split
        · exact (delete_consumer_fields s2 w.uuid).2.1.trans hs2
        · exact hs2
      refine ⟨hinvs.trans hnexts, ?_⟩
      intro w' hw' rp rcs hm e he
      rcases List.mem_cons.mp hw' with rfl | htail
      · have hx := createAllocations_invExists_of_ok hca rp rcs hm e he
        rwa [invExists_congr (rfl :
          (deleteConsumerAllocations s w'.uuid).inventories = s.inventories)] at hx
      · have hx := hrest w' htail rp rcs hm e he
        rwa [invExists_congr hnexts] at hx

/-- A successful multi-consumer write implies every referenced pair had
an inventory in the pre-state. -/
theorem post_allocations_invExists_of_ok {batch : List ConsumerWrite} {s s' : Store}
    (h : post_allocations batch s = .ok s') :
    ∀ w ∈ batch, ∀ rp rcs, (rp, rcs) ∈ w.allocations →
      ∀ e ∈ rcs, invExists s rp e.1 = true := by
  unfold post_allocations at h
  cases hp1 : postPhase1 batch s with
  | error e0 =>
    rw [hp1] at h
    exact Except.noConfusion h
  | ok s1 =>
    rw [hp1] at h
    intro w hw rp rcs hm e he
    have hx := (postPhase2_invExists_of_ok batch h).2 w hw rp rcs hm e he
    rwa [invExists_congr (postPhase1_inventories batch hp1)] at hx

/-- A successful reshape phase 2 implies every referenced pair has an
inventory (inventories are constant during phase 2, so in the final
state in particular). -/
theorem reshapePhase2_invExists_of_ok (allocs : List ConsumerWrite) :
    ∀ {s s' : Store}, reshapePhase2 allocs s = .ok s' →
    s'.inventories = s.inventories ∧
      ∀ w ∈ allocs, ∀ rp rcs, (rp, rcs) ∈ w.allocations →
        ∀ e ∈ rcs, invExists s rp e.1 = true := by
  induction allocs with
  | nil =>
    intro s s' h
    cases h
    exact ⟨rfl, fun w hw => absurd hw (List.not_mem_nil w)⟩
  | cons w rest ih =>
    intro s s' h
    unfold reshapePhase2 at h
    cases hstep : reshapeConsumerStep w s with
    | error e0 =>
      rw [hstep] at h
      exact Except.noConfusion h
    | ok s1 =>
      rw [hstep] at h
      obtain ⟨hinvs, hrest⟩ := ih h
      unfold reshapeConsumerStep at hstep
      cases hchk : checkConsumerGeneration w.uuid w.consumer_generation s with
      | error e0 =>
        rw [hchk] at hstep
        exact Except.noConfusion hstep
      | ok sA =>
        rw [hchk] at hstep
        dsimp only at hstep
        cases hca : createAllocations reshapeMissingInvErr w.uuid w.allocations
            (deleteConsumerAllocations sA w.uuid) with
        | error e0 =>
          rw [hca] at hstep
          exact Except.noConfusion hstep
        | ok s3 =>
          rw [hca] at hstep
          cases hstep
          have hs3 : s3.inventories = s.inventories := by
            have h1 := (createAllocations_ok_fields hca).2.2
            have h2 : (deleteConsumerAllocations sA w.uuid).inventories = s.inventories := by
              show sA.inventories = s.inventories
              exact (checkConsumerGeneration_ok_fields hchk).2.1
            exact h1.trans h2
          have hbump : (bumpConsumer s3 w.uuid).inventories = s.inventories := hs3
          refine ⟨hinvs.trans hbump, ?_⟩
          intro w' hw' rp rcs hm e he
          rcases List.mem_cons.mp hw' with rfl | htail
          · have hx := createAllocations_invExists_of_ok hca rp rcs hm e he
            have hdel : (deleteConsumerAllocations sA w'.uuid).inventories = s.inventories := by
              show sA.inventories = s.inventories
              exact (checkConsumerGeneration_ok_fields hchk).2.1
            rwa [invExists_congr hdel] at hx
          · have hx := hrest w' htail rp rcs hm e he
            rwa [invExists_congr hbump] at hx

/-- A successful reshape implies every pair referenced on the allocation
side has an inventory in the resulting store (the post-replacement
inventory set, which phase 2 does not change). -/
theorem reshape_invExists_of_ok {invs : List ProviderInvReplace}
    {allocs : List ConsumerWrite} {s s' : Store}
    (h : reshape invs allocs s = .ok s') :
    ∀ w ∈ allocs, ∀ rp rcs, (rp, rcs) ∈ w.allocations →
      ∀ e ∈ rcs, invExists s' rp e.1 = true := by
  unfold reshape at h
  split at h
  · exact Except.noConfusion h
  cases hp1 : reshapePhase1 invs s with
  | error e0 =>
    rw [hp1] at h
    exact Except.noConfusion h
  | ok s1 =>
    rw [hp1] at h
    intro w hw rp rcs hm e he
    obtain ⟨hinvs, hall⟩ := reshapePhase2_invExists_of_ok allocs h
    have hx := hall w hw rp rcs hm e he
    rwa [← invExists_congr hinvs] at hx

/-- Result of the successful 16-VCPU write for C1 on `allocStore`. -/
def putVcpuAfter : Store :=
  { providers := [⟨"P1", "cn1", 0, none, false⟩]
    consumers := [⟨"C1", 5⟩]
    inventories := [("P1", "VCPU", ⟨100, 20, 1, 1000, 1, 2⟩)]
    allocations := [⟨"C1", "P1", "VCPU", 16⟩]
    traits := []
    aggregates := []
    resource_classes := ["VCPU"] }

/-- C9, counterexample: the multi-consumer batch write referencing a
(provider, class) pair without inventory fails with a BadRequest
(HTTP 400), not the NotFound the claim asserts. -/
theorem c9_counterexample_post_badrequest :
    post_allocations [⟨"C1", some 4, [("P1", [("DISK_GB", 5)])]⟩] allocStore =
      .error (.badRequest "Allocation for resource provider 'P1' that does not exist.") ∧
    ∀ m, post_allocations [⟨"C1", some 4, [("P1", [("DISK_GB", 5)])]⟩] allocStore ≠
      .error (.notFound m) := by
  refine ⟨by decide, ?_⟩
  intro m h
  rw [show post_allocations [⟨"C1", some 4, [("P1", [("DISK_GB", 5)])]⟩] allocStore =
      .error (.badRequest "Allocation for resource provider 'P1' that does not exist.")
    from by decide] at h
  injection h with h2
  exact Err.noConfusion h2

/-- C9, amended: every allocation write verifies that each referenced
(provider, resource class) pair has an existing inventory, and fails
with no visible change otherwise — but the error type differs by path:
`put_allocations` and `reshape` raise NotFound while `post_allocations`
raises BadRequest.  Conjuncts 1-3: success of each writer implies every
referenced pair has an inventory (for reshape, in the post-replacement
inventory set).  Conjuncts 4-6: concrete missing-inventory requests,
showing the NotFound/NotFound/BadRequest error kinds. -/
theorem c9_missing_inventory_amended :
    (∀ (cu : String) (cg : Option Int) (allocs : List (String × List (String × Int)))
        (s s' : Store), put_allocations cu cg allocs s = .ok s' →
      ∀ rp rcs, (rp, rcs) ∈ allocs → ∀ e ∈ rcs, invExists s rp e.1 = true) ∧
    (∀ (batch : List ConsumerWrite) (s s' : Store), post_allocations batch s = .ok s' →
      ∀ w ∈ batch, ∀ rp rcs, (rp, rcs) ∈ w.allocations →
        ∀ e ∈ rcs, invExists s rp e.1 = true) ∧
    (∀ (invs : List ProviderInvReplace) (allocs : List ConsumerWrite) (s s' : Store),
      reshape invs allocs s = .ok s' →
      ∀ w ∈ allocs, ∀ rp rcs, (rp, rcs) ∈ w.allocations →
        ∀ e ∈ rcs, invExists s' rp e.1 = true) ∧
    put_allocations "C1" (some 4) [("P1", [("DISK_GB", 5)])] allocStore =
      .error (.notFound "Inventory for DISK_GB not found on resource provider P1.") ∧
    reshape [⟨"P1", 0, [("VCPU", ⟨100, none, none, none, none, none⟩)]⟩]
        [⟨"C1", some 4, [("P1", [("DISK_GB", 5)])]⟩] allocStore =
      .error (.notFound "Inventory for DISK_GB not found on provider P1") ∧
    post_allocations [⟨"C1", some 4, [("P1", [("DISK_GB", 5)])]⟩] allocStore =
      .error (.badRequest "Allocation for resource provider 'P1' that does not exist.") := by
  exact ⟨fun _ _ _ _ _ h => put_allocations_invExists_of_ok h,
    fun _ _ _ h => post_allocations_invExists_of_ok h,
    fun _ _ _ _ h => reshape_invExists_of_ok h,
    by decide, by decide, by decide⟩

/-- Witness for `c9_missing_inventory_amended` at a concrete input: the
successful 16-VCPU write certifies the inventory it referenced. -/
theorem c9_missing_inventory_amended_witness :
    invExists allocStore "P1" "VCPU" = true :=
  c9_missing_inventory_amended.1 "C1" (some 4) [("P1", [("VCPU", 16)])] allocStore
    putVcpuAfter (by decide) "P1" [("VCPU", 16)] (by decide) ("VCPU", 16) (by decide)

/-- Every candidate emitted by the collection loop either was in the
accumulator already or is produced by `candidateForRoot` on some
processed root. -/
theorem mem_collectCandidates {groups : List ReqGroup} {policy : Option String}
    {stg : List (List String)} {lim : Option Nat} :
    ∀ (l : List RootGroups) (acc : List Candidate) (c : Candidate),
    c ∈ collectCandidates groups policy stg lim l acc →
    c ∈ acc ∨ ∃ rd ∈ l, candidateForRoot groups policy stg rd = some c := by
  intro l
  induction l with
  | nil =>
    intro acc c h
    unfold collectCandidates at h
    exact Or.inl h
  | cons rd rest ih =>
    intro acc c h
    unfold collectCandidates at h
    cases hc : candidateForRoot groups policy stg rd with
    | none =>
      rw [hc] at h
      rcases ih _ c h with hacc | ⟨rd', hmem, heq⟩
      · exact Or.inl hacc
      · exact Or.inr ⟨rd', List.mem_cons_of_mem _ hmem, heq⟩
    | some c0 =>
      rw [hc] at h
      have hfromAppend : c ∈ acc ++ [c0] →
          c ∈ acc ∨ ∃ rd' ∈ rd :: rest, candidateForRoot groups policy stg rd' = some c := by
        intro hap
        rcases List.mem_append.mp hap with h1 | h2
        · exact Or.inl h1
        · rw [List.mem_singleton] at h2
          subst h2
          exact Or.inr ⟨rd, List.mem_cons_self _ _, hc⟩
      have hrec : c ∈ collectCandidates groups policy stg lim rest (acc ++ [c0]) →
          c ∈ acc ∨ ∃ rd' ∈ rd :: rest, candidateForRoot groups policy stg rd' = some c := by
        intro hr
        rcases ih _ c hr with hacc | ⟨rd', hmem, heq⟩
        · exact hfromAppend hacc
        · exact Or.inr ⟨rd', List.mem_cons_of_mem _ hmem, heq⟩
      cases lim with
      | none => exact hrec h
      | some lval =>
        dsimp only at h
        split at h
        · exact hfromAppend h
        · exact hrec h

/-- A list whose Python-style duplicate check is negative has no
duplicates. -/
theorem nodup_of_not_hasDuplicates {l : List String}
    (h : hasDuplicates l = false) : l.Nodup := by
  unfold hasDuplicates at h
  have hlen : l.length = l.dedup.length := by simpa using h
  have hd := (List.dedup_sublist l).eq_of_length hlen.symm
  rw [← hd]
  exact List.nodup_dedup l

/-- Under `group_policy=isolate`, any produced candidate's numbered
(non-default suffix) choices are pairwise-distinct providers. -/
theorem candidateForRoot_isolate_nodup {groups : List ReqGroup}
    {stg : List (List String)} {rd : RootGroups} {c : Candidate}
    (h : candidateForRoot groups (some "isolate") stg rd = some c) :
    ((c.allocation_data.filter (fun x => x.suffix ≠ "")).map
      GroupChoice.provider_uuid).Nodup := by
  unfold candidateForRoot at h
  split at h
  · exact Option.noConfusion h
  dsimp only at h
  split at h
  · exact Option.noConfusion h
  next hguard =>
  split at h
  · exact Option.noConfusion h
  cases h
  dsimp only
  simp only [Bool.and_eq_true, not_and, beq_self_eq_true, true_and,
    Bool.not_eq_true] at hguard
  rcases Nat.eq_zero_or_pos (((List.filterMap _ groups).filter
      (fun x => x.suffix ≠ "")).map GroupChoice.provider_uuid).length with hz | hpos
  · rw [List.length_eq_zero] at hz
    rw [hz]
    exact List.nodup_nil
  · have hdup := hguard (by simpa using hpos)
    exact nodup_of_not_hasDuplicates hdup

/-- C7: in the granular search with `group_policy=isolate`, every
returned candidate has pairwise-distinct chosen providers across the
non-default (numbered/named) groups — the default "" group is exempt
from the distinctness list (first conjunct).  Second conjunct, concrete:
with two numbered groups each requesting VCPU:4 and a single eligible
provider in the only tree, that tree yields zero candidates. -/
theorem c7_isolate_pairwise_distinct :
    (∀ (s : Store) (groups : List ReqGroup) (stg : List (List String))
        (rr rf : List String) (lim : Option Nat) (cand : Candidate),
      cand ∈ get_granular_allocation_candidates_fallback s groups (some "isolate")
        stg rr rf lim →
      ((cand.allocation_data.filter (fun x => x.suffix ≠ "")).map
        GroupChoice.provider_uuid).Nodup) ∧
    get_granular_allocation_candidates_fallback isoStore [gIso1, gIso2]
      (some "isolate") [] [] [] none = [] := by
  refine ⟨?_, by decide⟩
  intro s groups stg rr rf lim cand hmem
  unfold get_granular_allocation_candidates_fallback at hmem
  rcases mem_collectCandidates _ _ cand hmem with h | ⟨rd, _, heq⟩
  · exact absurd h (List.not_mem_nil _)
  · exact candidateForRoot_isolate_nodup heq

/-- Witness for `c7_isolate_pairwise_distinct` at a concrete input: the
two-child store yields a candidate under isolate whose numbered choices
(childA, childB) are distinct. -/
theorem c7_isolate_pairwise_distinct_witness :
    ((twoChildCandidate.allocation_data.filter (fun x => x.suffix ≠ "")).map
      GroupChoice.provider_uuid).Nodup :=
  c7_isolate_pairwise_distinct.1 twoChildStore [gTrait1, gTrait2] [] [] [] none
    twoChildCandidate (by decide)

/-- Well-formedness of a `groups_by_root` entry: every provider recorded
for any group suffix lies in the tree of the entry's root. -/
def rootGroupsWf (s : Store) (rd : RootGroups) : Prop :=
  ∀ e ∈ rd.groups, ∀ pr ∈ e.2, inTreeOf s rd.root_uuid pr.1 = true

/-- Providers selected for a group under a root lie in that root's
tree. -/
theorem groupProvidersForRoot_inTree {s : Store} {g : ReqGroup} {root : Provider}
    {pr : String × Int} (h : pr ∈ groupProvidersForRoot s g root) :
    inTreeOf s root.uuid pr.1 = true := by
  unfold groupProvidersForRoot at h
  rcases List.mem_map.mp h with ⟨p, hp, rfl⟩
  have hp2 := (List.mem_filter.mp hp).1
  have hp3 := (List.mem_filter.mp hp2).1
  unfold treeProviders at hp3
  exact (List.mem_filter.mp hp3).2

/-- Upserting a suffix entry preserves the in-tree property. -/
theorem setGroupEntry_wf {s : Store} {root : String}
    {gs : List (String × List (String × Int))} {sfx : String}
    {ps : List (String × Int)}
    (hgs : ∀ e ∈ gs, ∀ pr ∈ e.2, inTreeOf s root pr.1 = true)
    (hps : ∀ pr ∈ ps, inTreeOf s root pr.1 = true) :
    ∀ e ∈ setGroupEntry gs sfx ps, ∀ pr ∈ e.2, inTreeOf s root pr.1 = true := by
  intro e he
  unfold setGroupEntry at he
  split at he
  · rcases List.mem_map.mp he with ⟨e0, he0, heq⟩
    by_cases hc : (e0.1 == sfx) = true
    · rw [if_pos hc] at heq
      subst heq
      exact hps
    · rw [if_neg hc] at heq
      subst heq
      exact hgs e0 he0
  · rcases List.mem_append.mp he with h1 | h2
    · exact hgs e h1
    · rw [List.mem_singleton] at h2
      subst h2
      exact hps

/-- Inserting one (root, suffix, providers) result preserves
well-formedness of every entry. -/
theorem addRootGroup_wf {s : Store} {gbr : List RootGroups} {root : Provider}
    {sfx : String} {ps : List (String × Int)}
    (hgbr : ∀ rd ∈ gbr, rootGroupsWf s rd)
    (hps : ∀ pr ∈ ps, inTreeOf s root.uuid pr.1 = true) :
    ∀ rd ∈ addRootGroup gbr root sfx ps, rootGroupsWf s rd := by
  intro rd hrd
  unfold addRootGroup at hrd
  split at hrd
  · rcases List.mem_map.mp hrd with ⟨rd0, hrd0, heq⟩
    by_cases hc : (rd0.root_uuid == root.uuid) = true
    · rw [if_pos hc] at heq
      subst heq
      intro e he pr hpr
      have hrooteq : rd0.root_uuid = root.uuid := eq_of_beq hc
      exact setGroupEntry_wf (fun e' he' => hgbr rd0 hrd0 e' he')
        (by rw [hrooteq]; exact hps) e he pr hpr
    · rw [if_neg hc] at heq
      subst heq
      exact hgbr rd0 hrd0
  · rcases List.mem_append.mp hrd with h1 | h2
    · exact hgbr rd h1
    · rw [List.mem_singleton] at h2
      subst h2
      intro e he pr hpr
      rw [List.mem_singleton] at he
      subst he
      exact hps pr hpr

/-- Processing one group over all roots preserves well-formedness. -/
theorem addGroupForRoots_wf (s : Store) (g : ReqGroup) :
    ∀ (roots : List Provider) (gbr : List RootGroups),
    (∀ rd ∈ gbr, rootGroupsWf s rd) →
    ∀ rd ∈ addGroupForRoots s g roots gbr, rootGroupsWf s rd := by
  intro roots
  induction roots with
  | nil =>
    intro gbr hgbr rd hrd
    exact hgbr rd hrd
  | cons root rest ih =>
    intro gbr hgbr rd hrd
    unfold addGroupForRoots at hrd
    dsimp only at hrd
    refine ih _ ?_ rd hrd
    split
    · exact hgbr
    · exact addRootGroup_wf hgbr (fun pr hpr => groupProvidersForRoot_inTree hpr)

/-- The whole `groups_by_root` accumulation preserves
well-formedness. -/
theorem groupsByRootAux_wf (s : Store) (roots : List Provider) :
    ∀ (gl : List ReqGroup) (gbr : List RootGroups),
    (∀ rd ∈ gbr, rootGroupsWf s rd) →
    ∀ rd ∈ groupsByRootAux s roots gl gbr, rootGroupsWf s rd := by
  intro gl
  induction gl with
  | nil =>
    intro gbr hgbr rd hrd
    exact hgbr rd hrd
  | cons g rest ih =>
    intro gbr hgbr rd hrd
    unfold groupsByRootAux at hrd
    exact ih _ (addGroupForRoots_wf s g roots gbr hgbr) rd hrd

/-- Every entry of `groups_by_root` is well-formed: all its recorded
providers lie in its root's tree. -/
theorem groupsByRoot_wf {s : Store} {rr rf : List String} {groups : List ReqGroup}
    {rd : RootGroups} (hrd : rd ∈ groupsByRoot s rr rf groups) :
    rootGroupsWf s rd := by
  unfold groupsByRoot at hrd
  exact groupsByRootAux_wf s _ groups [] (fun rd' h => absurd h (List.not_mem_nil rd'))
    rd hrd

/-- Any produced candidate carries its root's uuid, and each chosen
provider is the head of one of the root's recorded provider lists. -/
theorem candidateForRoot_root_and_choices {groups : List ReqGroup}
    {policy : Option String} {stg : List (List String)} {rd : RootGroups}
    {c : Candidate} (h : candidateForRoot groups policy stg rd = some c) :
    c.root_uuid = rd.root_uuid ∧
    ∀ ch ∈ c.allocation_data, ∃ e ∈ rd.groups, ∃ pr ∈ e.2, pr.1 = ch.provider_uuid := by
  unfold candidateForRoot at h
  split at h
  · exact Option.noConfusion h
  dsimp only at h
  split at h
  · exact Option.noConfusion h
  split at h
  · exact Option.noConfusion h
  cases h
  refine ⟨rfl, ?_⟩
  intro ch hch
  dsimp only at hch
  rcases List.mem_filterMap.mp hch with ⟨g, hg, hf⟩
  cases hfind : rd.groups.find? (fun e => e.1 == g.suffix) with
  | none =>
    rw [hfind] at hf
    exact Option.noConfusion hf
  | some e =>
    rw [hfind] at hf
    simp only [Option.map_some'] at hf
    cases he2 : e.2 with
    | nil =>
      rw [he2] at hf
      exact Option.noConfusion hf
    | cons pref tl =>
      rw [he2] at hf
      dsimp only at hf
      cases hf
      refine ⟨e, List.mem_of_find?_eq_some hfind, pref, ?_, rfl⟩
      rw [he2]
      exact List.mem_cons_self _ _

/-- A provider is in its own tree. -/
theorem inTreeOf_self (s : Store) (a : String) : inTreeOf s a a = true := by
  unfold inTreeOf
  simp

/-- The chosen providers of a candidate for a set of group keys share a
common ancestor inside the candidate's tree. -/
def haveCommonAncestorIn (s : Store) (root : String) (ps : List String) : Prop :=
  ∃ a, inTreeOf s root a = true ∧ ∀ p ∈ ps, inTreeOf s a p = true

/-- C8: for every returned granular candidate and every set of group
keys (so in particular every declared same_subtree set), the chosen
providers for those keys share a common ancestor within the candidate's
tree — the candidate's root itself is such an ancestor, because every
chosen provider is drawn from the root's tree; hence a combination whose
chosen providers share no common ancestor is never returned (first
conjunct).  Second conjunct, concrete: a same_subtree request over
groups _1 and _2 on the two-child tree returns the candidate choosing
childA and childB, whose common ancestor is the root r. -/
theorem c8_same_subtree_common_ancestor :
    (∀ (s : Store) (groups : List ReqGroup) (policy : Option String)
        (stg : List (List String)) (rr rf : List String) (lim : Option Nat)
        (cand : Candidate) (keys : List String),
      cand ∈ get_granular_allocation_candidates_fallback s groups policy stg rr rf lim →
      haveCommonAncestorIn s cand.root_uuid
        ((cand.allocation_data.filter (fun x => keys.contains x.suffix)).map
          GroupChoice.provider_uuid)) ∧
    get_granular_allocation_candidates_fallback twoChildStore [gTrait1, gTrait2] none
      [["_1", "_2"]] [] [] none = [twoChildCandidate] := by
  refine ⟨?_, by decide⟩
  intro s groups policy stg rr rf lim cand keys hmem
  unfold get_granular_allocation_candidates_fallback at hmem
  rcases mem_collectCandidates _ _ cand hmem with h | ⟨rd, hrd, heq⟩
  · exact absurd h (List.not_mem_nil _)
  obtain ⟨hroot, hch⟩ := candidateForRoot_root_and_choices heq
  refine ⟨cand.root_uuid, inTreeOf_self s _, ?_⟩
  intro p hp
  rcases List.mem_map.mp hp with ⟨ch, hchf, rfl⟩
  have hchin : ch ∈ cand.allocation_data := (List.mem_filter.mp hchf).1
  obtain ⟨e, he, pr, hpr, hpru⟩ := hch ch hchin
  have hin := groupsByRoot_wf hrd e he pr hpr
  rw [hpru] at hin
  rw [hroot]
  exact hin

/-- Witness for `c8_same_subtree_common_ancestor` at a concrete input:
the two-child candidate's choices for keys 1 and 2 share an ancestor in
its tree. -/
theorem c8_same_subtree_common_ancestor_witness :
    haveCommonAncestorIn twoChildStore twoChildCandidate.root_uuid
      ((twoChildCandidate.allocation_data.filter
        (fun x => (["1", "2"] : List String).contains x.suffix)).map
        GroupChoice.provider_uuid) :=
  c8_same_subtree_common_ancestor.1 twoChildStore [gTrait1, gTrait2] none
    [["_1", "_2"]] [] [] none twoChildCandidate ["1", "2"] (by decide)
